import Mathlib

/-!
Shallow embedding of the asynchronous processing pipeline of the
CogniversPlatform repository (src/api/tasks.py, src/api/llm.py, and the
ORM records of src/api/models that the pipeline reads and writes).

The database is modelled as lists of plain records; SQLAlchemy queries
become list filters and joins; `scalar_one_or_none` becomes `List.find?`;
ORM mutation plus `commit` becomes replacing the row (keyed by primary
key) in the list.  SQL result sets that the source leaves unordered are
modelled deterministically as iteration over the stored lists; all other
steps are transcribed branch for branch from the Python source.  External
effects (the Jinja2 renderer and `subprocess.run`) are oracles passed in
as function arguments, so theorems quantify over every possible outcome
of those calls.
-/

namespace Cognivers

/-- `InterpreterType` enum from src/api/models/processors.py. -/
inductive InterpreterType where
  | none
  | python
  | javascript
deriving DecidableEq, Repr

/-- Minimal model of the Python/JSON values that flow through the
pipeline (answers, post-processing dictionaries). -/
inductive PyVal where
  | str (s : String)
  | int (n : Int)
  | bool (b : Bool)
  | noneV
deriving DecidableEq, Repr

/-- A JSON object / Python dict, as an association list. -/
abbrev PyDict := List (String × PyVal)

/-- `questions` table row (the fields the pipeline reads). -/
structure Question where
  id : Int
  questionnaire_id : Int
  text : String
  type : String
deriving DecidableEq, Repr

/-- `question_processor_mappings` table row. -/
structure QuestionProcessorMapping where
  id : Int
  question_id : Int
  processor_id : Int
  is_active : Bool
deriving DecidableEq, Repr

/-- `processors` table row (the fields the pipeline reads). -/
structure Processor where
  id : Int
  is_active : Bool
  prompt_template : String
  post_processing_code : Option String
  interpreter : InterpreterType
  llm_temperature : Option ℚ
  llm_max_tokens : Option Int
  llm_stop_sequences : Option (List String)
  llm_system_prompt : Option String
deriving DecidableEq, Repr

/-- `questionnaire_responses` table row (the fields the pipeline reads). -/
structure QuestionnaireResponse where
  id : Int
  questionnaire_id : Int
  user_id : Int
deriving DecidableEq, Repr

/-- `question_responses` table row (the fields the pipeline reads). -/
structure QuestionResponse where
  id : Int
  question_id : Int
  questionnaire_response_id : Int
  answer : PyVal
deriving DecidableEq, Repr

/-- `processing_results` table row.  Timestamps are modelled as abstract
ticks (`Nat`), supplied to the tasks as a `now` argument. -/
structure ProcessingResult where
  id : Int
  questionnaire_response_id : Int
  processor_id : Int
  processor_version : String
  prompt : Option String
  raw_output : Option String
  processed_output : Option PyDict
  status : String
  error_message : Option String
  question_ids : List Int
  created_at : Nat
  updated_at : Nat
deriving DecidableEq, Repr

/-- The database state the pipeline reads and writes.  `next_result_id`
models the autoincrement primary-key counter of `processing_results`. -/
structure DB where
  questions : List Question
  question_processor_mappings : List QuestionProcessorMapping
  processors : List Processor
  questionnaire_responses : List QuestionnaireResponse
  question_responses : List QuestionResponse
  processing_results : List ProcessingResult
  next_result_id : Int
deriving DecidableEq, Repr

/-- A message placed on the task queue by `.delay(...)`. -/
inductive Job where
  | executeJob (result_id : Int)
  | dispatchJob (response_id : Int)
deriving DecidableEq, Repr

/-- The dictionary a task returns (either an "error" or a "message"). -/
inductive TaskOutcome where
  | error (msg : String)
  | message (msg : String)
deriving DecidableEq, Repr

/-! ## Python truthiness helpers

Python `if x:` on an `Optional[str]`, `Optional[int]` / `Optional[float]`
or `Optional[list]` is false for `None` and for the empty/zero value. -/

def pyTruthyStr : Option String → Bool
  | Option.none => false
  | some s => s ≠ ""

def pyTruthyInt : Option Int → Bool
  | Option.none => false
  | some n => n ≠ 0

def pyTruthyList : Option (List String) → Bool
  | Option.none => false
  | some l => ¬ l.isEmpty

/-- Python `x or d` for an `Optional[float]` (None and 0.0 are falsy). -/
def pyOrRat (x : Option ℚ) (d : ℚ) : ℚ :=
  match x with
  | Option.none => d
  | some v => if v = 0 then d else v

/-- Python `x or d` for an `Optional[int]` (None and 0 are falsy). -/
def pyOrInt (x : Option Int) (d : Int) : Int :=
  match x with
  | Option.none => d
  | some v => if v = 0 then d else v

/-- The float literal `0.7` (written as an explicit rational in lowest
terms so that kernel evaluation of comparisons involving it reduces). -/
def float07 : ℚ := ⟨7, 10, by norm_num, by norm_num⟩

/-! ## Query helpers (SQLAlchemy selects as list operations) -/

/-- `select(QuestionnaireResponse).where(id == rid)` + `scalar_one_or_none`. -/
def findResponse (db : DB) (rid : Int) : Option QuestionnaireResponse :=
  db.questionnaire_responses.find? (fun r => r.id == rid)

/-- `select(ProcessingResult).where(response == rid, processor == pid)` +
`scalar_one_or_none`. -/
def findResult (db : DB) (rid pid : Int) : Option ProcessingResult :=
  db.processing_results.find? (fun pr =>
    pr.questionnaire_response_id == rid && pr.processor_id == pid)

/-- `select(ProcessingResult).where(id == result_id)` + `scalar_one_or_none`. -/
def findResultById (db : DB) (result_id : Int) : Option ProcessingResult :=
  db.processing_results.find? (fun pr => pr.id == result_id)

/-- `select(Processor).where(id == pid)` + `scalar_one_or_none`. -/
def findProcessor (db : DB) (pid : Int) : Option Processor :=
  db.processors.find? (fun p => p.id == pid)

/-- ORM mutation of a loaded `ProcessingResult` row followed by `commit`:
the row with the same primary key is replaced. -/
def setResult (db : DB) (pr : ProcessingResult) : DB :=
  { db with processing_results :=
      db.processing_results.map (fun r => if r.id == pr.id then pr else r) }

/-- `session.add(processing_result)` + `flush`/`commit` for a fresh row:
append it and advance the autoincrement counter. -/
def addResult (db : DB) (pr : ProcessingResult) : DB :=
  { db with processing_results := db.processing_results ++ [pr],
            next_result_id := db.next_result_id + 1 }

/-- The mapping rows of one question (`question.processor_mappings`
relationship traversal: every mapping row with this question id). -/
def processorMappingsOf (db : DB) (q : Question) : List QuestionProcessorMapping :=
  db.question_processor_mappings.filter (fun m => m.question_id == q.id)

/-- tasks.py lines 56-65: `select(Question).join(Question.processor_mappings)
.join(Processor).where(questionnaire_id == qid, Processor.is_active)`.
The join yields one row per (question, mapping-to-an-active-processor)
pair, so a question bound to several active processors occurs several
times; no ORDER BY is issued, modelled as question-major table order. -/
def questionsWithProcessors (db : DB) (qid : Int) : List Question :=
  (db.questions.filter (fun q => q.questionnaire_id == qid)).flatMap (fun q =>
    ((processorMappingsOf db q).filter (fun m =>
      (findProcessor db m.processor_id).elim false (fun p => p.is_active))).map
        (fun _ => q))

/-- tasks.py lines 80-85, inner dict update: append `q` to the group of
`pid`, creating the group at the end on first sight (Python dicts keep
insertion order). -/
def addToGroup (groups : List (Int × List Question)) (pid : Int) (q : Question) :
    List (Int × List Question) :=
  if groups.any (fun g => g.1 == pid) then
    groups.map (fun g => if g.1 == pid then (g.1, g.2 ++ [q]) else g)
  else
    groups ++ [(pid, [q])]

/-- tasks.py lines 79-85: group the joined question rows by processor,
iterating each row's full `processor_mappings` list (note: *not*
filtered by `Processor.is_active`). -/
def processorQuestions (db : DB) (qs : List Question) : List (Int × List Question) :=
  qs.foldl (fun groups q =>
    (processorMappingsOf db q).foldl
      (fun groups m => addToGroup groups m.processor_id q) groups) []

/-- tasks.py lines 104-114: the fresh `ProcessingResult` row the
dispatcher inserts for a group with no existing row. -/
def newProcessingResult (db : DB) (now : Nat) (response_id pid : Int)
    (questions : List Question) : ProcessingResult :=
  { id := db.next_result_id,
    questionnaire_response_id := response_id,
    processor_id := pid,
    processor_version := "deepseek-r1@v0.1",
    prompt := Option.none,
    raw_output := Option.none,
    processed_output := Option.none,
    status := "processing",
    error_message := Option.none,
    question_ids := questions.map (fun q => q.id),
    created_at := now,
    updated_at := now }

/-- tasks.py lines 115-120: in-place update of an existing (non-completed)
row — status back to `processing`, fresh timestamp, fresh question-id
list; every other field (including `error_message`) is left as it was. -/
def updatedResult (existing_result : ProcessingResult) (now : Nat)
    (questions : List Question) : ProcessingResult :=
  { existing_result with
    status := "processing",
    updated_at := now,
    question_ids := questions.map (fun q => q.id) }

/-- tasks.py lines 88-125: the per-group loop of
`process_questionnaire_response`: skip groups whose existing result is
`completed`; otherwise upsert a row with status `processing` and enqueue
one `execute_processor` job carrying the result id. -/
def dispatchGroups (now : Nat) (response_id : Int) :
    List (Int × List Question) → DB → List Job → DB × List Job
  | [], db, jobs => (db, jobs)
  | (pid, questions) :: rest, db, jobs =>
    match findResult db response_id pid with
    | some existing_result =>
      if existing_result.status == "completed" then
        dispatchGroups now response_id rest db jobs
      else
        dispatchGroups now response_id rest
          (setResult db (updatedResult existing_result now questions))
          (jobs ++ [Job.executeJob (updatedResult existing_result now questions).id])
    | Option.none =>
      dispatchGroups now response_id rest
        (addResult db (newProcessingResult db now response_id pid questions))
        (jobs ++ [Job.executeJob (newProcessingResult db now response_id pid questions).id])

/-- The grouping plus per-group loop of the dispatcher, starting from an
empty job list (tasks.py lines 79-125). -/
def dispatchRun (db : DB) (now : Nat) (response_id : Int)
    (questions_with_processors : List Question) : DB × List Job :=
  dispatchGroups now response_id
    (processorQuestions db questions_with_processors) db []

/-- `process_questionnaire_response` (tasks.py lines 33-136), the
Dispatcher.  Returns the new database state, the enqueued jobs and the
task's return dictionary.  (The fetch of the response's
`QuestionResponse` rows at lines 72-77 binds a variable the rest of the
task never uses, so it has no effect to model.) -/
def process_questionnaire_response (db : DB) (now : Nat) (response_id : Int) :
    DB × List Job × TaskOutcome :=
  match findResponse db response_id with
  | Option.none => (db, [], TaskOutcome.error "Questionnaire response not found")
  | some questionnaire_response =>
    if (questionsWithProcessors db questionnaire_response.questionnaire_id).isEmpty then
      (db, [], TaskOutcome.message "No processors assigned")
    else
      ((dispatchRun db now response_id
          (questionsWithProcessors db questionnaire_response.questionnaire_id)).1,
        (dispatchRun db now response_id
          (questionsWithProcessors db questionnaire_response.questionnaire_id)).2,
        TaskOutcome.message
          ("Queued processing with "
            ++ toString (questionsWithProcessors db
                questionnaire_response.questionnaire_id).length
            ++ " questions"))

/-! ## Generation client (src/api/llm.py) and sandbox calls -/

/-- One entry of the render context list built at tasks.py lines 206-214. -/
structure QData where
  id : Int
  text : String
  type : String
  answer : PyVal
  index : Nat
deriving DecidableEq, Repr

/-- The Jinja2 render context of tasks.py lines 217-221 (also the
`prompt_data` fed to the sandbox on stdin). -/
structure RenderContext where
  questions : List QData
  questionnaire_id : Int
  user_id : Int
deriving DecidableEq, Repr

/-- The JSON document fed to a sandbox child process on stdin
(tasks.py lines 290-293), modelled structurally. -/
structure SandboxInput where
  output : String
  prompt_data : RenderContext
deriving DecidableEq, Repr

/-- One `subprocess.run` invocation, keeping the keyword arguments the
source passes.  `timeout = Option.none` models that no `timeout` keyword
is passed; `script` holds the contents of the temporary script file when
the program is given one. -/
structure SubprocessCall where
  program : String
  script : Option String
  args : List String
  input : Option SandboxInput
  capture_output : Bool
  text : Bool
  timeout : Option ℚ
  check : Bool
deriving DecidableEq, Repr

/-- Outcome of a `subprocess.run(..., check=True)` call: a completed
process (zero exit) or a raised `CalledProcessError`. -/
inductive SubprocessOutcome where
  | completedProcess (stdout : String) (stderr : String)
  | calledProcessError (stderr : String)
deriving DecidableEq, Repr

/-- Return dictionary of `generate_with_deepseek`. -/
structure GenResult where
  output : Option String
  error : Option String
deriving DecidableEq, Repr

/-- The argument tuple `execute_processor` passes to the generation
backend (tasks.py lines 231-237), recorded as an event for the
theorems about external generation calls. -/
structure GenRequest where
  prompt : String
  temperature : ℚ
  max_tokens : Int
  stop_sequences : Option (List String)
  system_prompt : Option String
deriving DecidableEq, Repr

def DEEPSEEK_MODEL_PATH : String := "/app/models/deepseek-r1/model"

/-- The command `generate_with_deepseek` builds and runs
(llm.py lines 31-53).  Note: no `timeout` keyword is passed. -/
def deepseekCall (prompt : String) (temperature : ℚ) (max_tokens : Int)
    (stop_sequences : Option (List String)) (system_prompt : Option String) :
    SubprocessCall :=
  let args := ["-m", "deepseek.r1", "--model", DEEPSEEK_MODEL_PATH,
    "--prompt", prompt, "--temperature", toString temperature,
    "--max_tokens", toString max_tokens]
  let args := if pyTruthyStr system_prompt then
    args ++ ["--system_prompt", system_prompt.getD ""] else args
  let args := if pyTruthyList stop_sequences then
    args ++ ["--stop", String.intercalate "," (stop_sequences.getD [])] else args
  { program := "python", script := Option.none, args := args,
    input := Option.none, capture_output := true, text := true,
    timeout := Option.none, check := true }

/-- `generate_with_deepseek` (llm.py lines 21-64), parameterized by a
`run` oracle standing for `subprocess.run`. -/
def generate_with_deepseek (run : SubprocessCall → SubprocessOutcome)
    (prompt : String) (temperature : ℚ) (max_tokens : Int)
    (stop_sequences : Option (List String)) (system_prompt : Option String) :
    GenResult :=
  match run (deepseekCall prompt temperature max_tokens stop_sequences system_prompt) with
  | SubprocessOutcome.completedProcess stdout _ =>
    { output := some stdout, error := Option.none }
  | SubprocessOutcome.calledProcessError stderr =>
    { output := Option.none, error := some stderr }

/-- The `subprocess.run` call of the python branch of
`execute_post_processing` (tasks.py lines 296-302): a temporary script
holding `code`, the JSON input document on stdin, no `timeout` keyword. -/
def pythonPostCall (code : String) (output : String) (prompt_data : RenderContext) :
    SubprocessCall :=
  { program := "python", script := some code, args := [],
    input := some { output := output, prompt_data := prompt_data },
    capture_output := true, text := true,
    timeout := Option.none, check := true }

/-- The `subprocess.run` call of the javascript branch of
`execute_post_processing` (tasks.py lines 332-338). -/
def nodePostCall (code : String) (output : String) (prompt_data : RenderContext) :
    SubprocessCall :=
  { program := "node", script := some code, args := [],
    input := some { output := output, prompt_data := prompt_data },
    capture_output := true, text := true,
    timeout := Option.none, check := true }

/-- `execute_post_processing` (tasks.py lines 279-354), parameterized by
a `run` oracle for `subprocess.run` and a `parse` oracle for
`json.loads` on the child's stdout.  A raised exception is modelled as
`Except.error` carrying the exception message.  The final fallthrough
for any other interpreter type returns the empty dict. -/
def execute_post_processing (run : SubprocessCall → SubprocessOutcome)
    (parse : String → Option PyDict) (interpreter : InterpreterType)
    (code : String) (output : String) (prompt_data : RenderContext) :
    Except String PyDict :=
  match interpreter with
  | InterpreterType.python =>
    match run (pythonPostCall code output prompt_data) with
    | SubprocessOutcome.calledProcessError stderr =>
      Except.error ("Post-processing failed: " ++ stderr)
    | SubprocessOutcome.completedProcess stdout _ =>
      match parse stdout with
      | some d => Except.ok d
      | Option.none => Except.error "Post-processing output is not valid JSON"
  | InterpreterType.javascript =>
    match run (nodePostCall code output prompt_data) with
    | SubprocessOutcome.calledProcessError stderr =>
      Except.error ("Post-processing failed: " ++ stderr)
    | SubprocessOutcome.completedProcess stdout _ =>
      match parse stdout with
      | some d => Except.ok d
      | Option.none => Except.error "Post-processing output is not valid JSON"
  | InterpreterType.none => Except.ok []

/-! ## Worker / Executor (tasks.py, execute_processor) -/

/-- tasks.py lines 186-195: `select(QuestionResponse).where(response,
question_id in question_ids).join(Question).order_by(question_id)`.
The inner join keeps only rows whose question exists; `in_` is set
membership, so duplicate entries in `question_ids` do not duplicate
rows; the result is sorted by question id ascending. -/
def fetchQuestionResponses (db : DB) (pr : ProcessingResult) : List QuestionResponse :=
  let rows := db.question_responses.filter (fun qr =>
    qr.questionnaire_response_id == pr.questionnaire_response_id &&
    pr.question_ids.contains qr.question_id &&
    db.questions.any (fun q => q.id == qr.question_id))
  rows.foldr insertByQid []
where
  /-- stable insertion keeping question ids ascending (ORDER BY). -/
  insertByQid (qr : QuestionResponse) : List QuestionResponse → List QuestionResponse
    | [] => [qr]
    | x :: xs =>
      if qr.question_id ≤ x.question_id then qr :: x :: xs
      else x :: insertByQid qr xs

/-- tasks.py lines 206-214: build the `questions_data` list with 1-based
indices; `qr.question` is the join to the live `Question` row. -/
def buildQuestionsData (db : DB) (qrs : List QuestionResponse) : List QData :=
  qrs.enum.map (fun x =>
    let qr := x.2
    let q := (db.questions.find? (fun q => q.id == qr.question_id)).getD
      { id := qr.question_id, questionnaire_id := 0, text := "", type := "" }
    { id := qr.question_id, text := q.text, type := q.type,
      answer := qr.answer, index := x.1 + 1 })

/-- `result["output"]` as a JSON value for the stub post-processing dict. -/
def optStrToPyVal : Option String → PyVal
  | Option.none => PyVal.noneV
  | some s => PyVal.str s

/-- tasks.py lines 216-221: the Jinja2 render context for a result row
(also the `prompt_data` of the sandbox input document). -/
def executeContext (db : DB) (questionnaire_response : QuestionnaireResponse)
    (processing_result : ProcessingResult) : RenderContext :=
  { questions := buildQuestionsData db (fetchQuestionResponses db processing_result),
    questionnaire_id := questionnaire_response.questionnaire_id,
    user_id := questionnaire_response.user_id }

/-- tasks.py lines 231-237: the arguments `execute_processor` passes to
`generate_with_deepseek`, with the `or`-defaults applied. -/
def genRequestOf (processor : Processor) (prompt : String) : GenRequest :=
  { prompt := prompt,
    temperature := pyOrRat processor.llm_temperature float07,
    max_tokens := pyOrInt processor.llm_max_tokens 2000,
    stop_sequences := processor.llm_stop_sequences,
    system_prompt := processor.llm_system_prompt }

/-- tasks.py lines 242-259: after the generation call returned, store the
raw output, apply the stub post-processing block (lines 245-256: guarded
only by `if processor.post_processing_code:`, it sets
`processed_output = {"processed": result["output"]}` without consulting
the interpreter or calling `execute_post_processing`; its `except` arm is
unreachable since building that dict cannot raise) and mark the row
`completed`. -/
def completeRow (processor : Processor) (pr1 : ProcessingResult)
    (result : GenResult) : ProcessingResult :=
  if pyTruthyStr processor.post_processing_code then
    { pr1 with
      raw_output := result.output,
      processed_output := some [("processed", optStrToPyVal result.output)],
      status := "completed" }
  else
    { pr1 with raw_output := result.output, status := "completed" }

/-- tasks.py lines 239-261: branch on `if result["error"]:` — a truthy
error string is re-raised, caught by the catch-all at line 263 which
persists `failed` with message `str(e)`; otherwise the row completes. -/
def executeAfterGen (db : DB) (processor : Processor) (pr1 : ProcessingResult)
    (req : GenRequest) (result : GenResult) : DB × List GenRequest × TaskOutcome :=
  if pyTruthyStr result.error then
    (setResult db { pr1 with
        status := "failed",
        error_message := some ("DeepSeek R1 error: " ++ result.error.getD "") },
      [req], TaskOutcome.error ("DeepSeek R1 error: " ++ result.error.getD ""))
  else
    (setResult db (completeRow processor pr1 result), [req],
      TaskOutcome.message "Processing completed successfully")

/-- tasks.py lines 204-268, the `try:` block: render the template (a
render exception is caught by the catch-all at line 263 and persisted as
`failed` with message `str(e)`), store the prompt on the row, call the
generation backend, and continue in `executeAfterGen`. -/
def executeTry (render : String → RenderContext → Except String String)
    (run : SubprocessCall → SubprocessOutcome) (db : DB) (processor : Processor)
    (questionnaire_response : QuestionnaireResponse)
    (processing_result : ProcessingResult) : DB × List GenRequest × TaskOutcome :=
  match render processor.prompt_template
      (executeContext db questionnaire_response processing_result) with
  | Except.error e =>
    (setResult db { processing_result with
        status := "failed", error_message := some e },
      [], TaskOutcome.error e)
  | Except.ok prompt =>
    executeAfterGen db processor { processing_result with prompt := some prompt }
      (genRequestOf processor prompt)
      (generate_with_deepseek run prompt
        (pyOrRat processor.llm_temperature float07)
        (pyOrInt processor.llm_max_tokens 2000)
        processor.llm_stop_sequences processor.llm_system_prompt)

/-- `execute_processor` (tasks.py lines 138-277), the Worker.
Parameterized by a `render` oracle for `Template(...).render(...)` and
the `run` oracle for `subprocess.run` used by `generate_with_deepseek`.
Returns the new database state, the list of generation-backend argument
tuples actually passed (the external calls made by this invocation) and
the task's return dictionary.  Note there is no status re-check before
the pipeline runs. -/
def execute_processor (render : String → RenderContext → Except String String)
    (run : SubprocessCall → SubprocessOutcome) (db : DB) (result_id : Int) :
    DB × List GenRequest × TaskOutcome :=
  match findResultById db result_id with
  | Option.none => (db, [], TaskOutcome.error "Processing result not found")
  | some processing_result =>
    match findProcessor db processing_result.processor_id with
    | Option.none =>
      (setResult db { processing_result with
          status := "failed", error_message := some "Processor not found" },
        [], TaskOutcome.error "Processor not found")
    | some processor =>
      match findResponse db processing_result.questionnaire_response_id with
      | Option.none =>
        (setResult db { processing_result with
            status := "failed",
            error_message := some "Questionnaire response not found" },
          [], TaskOutcome.error "Questionnaire response not found")
      | some questionnaire_response =>
        if (fetchQuestionResponses db processing_result).isEmpty then
          (setResult db { processing_result with
              status := "failed",
              error_message := some "No question responses found" },
            [], TaskOutcome.error "No question responses found")
        else
          executeTry render run db processor questionnaire_response processing_result

/-! ## Requeue operation (tasks.py, requeue_processing) -/

/-- tasks.py lines 375-400: the deletion phase of `requeue_processing`.
`if processor_id:` is Python truthiness on the optional argument; with a
(non-zero) processor id the one matching row (if any) is deleted,
otherwise every row of the response is deleted. -/
def requeueDelete (db : DB) (response_id : Int) (processor_id : Option Int) : DB :=
  if pyTruthyInt processor_id then
    match findResult db response_id (processor_id.getD 0) with
    | some existing_result =>
      { db with processing_results :=
          db.processing_results.filter (fun pr => pr.id != existing_result.id) }
    | Option.none => db
  else
    { db with processing_results :=
        db.processing_results.filter (fun pr =>
          pr.questionnaire_response_id != response_id) }

/-- The result store with the one row for (response, processor) key
(r, P) removed — what `requeueDelete` amounts to under unique keys. -/
def deleteByKey (db : DB) (r P : Int) : DB :=
  { db with processing_results :=
      db.processing_results.filter (fun pr =>
        !(pr.questionnaire_response_id == r && pr.processor_id == P)) }

/-- `requeue_processing` (tasks.py lines 356-414): delete per
`requeueDelete`, then enqueue one dispatch job for the response. -/
def requeue_processing (db : DB) (response_id : Int) (processor_id : Option Int) :
    DB × List Job × TaskOutcome :=
  match findResponse db response_id with
  | Option.none => (db, [], TaskOutcome.error "Questionnaire response not found")
  | some _ =>
    (requeueDelete db response_id processor_id,
      [Job.dispatchJob response_id],
      TaskOutcome.message
        ("Requeued response " ++ toString response_id ++ " for processing"))

/-! ## Well-formedness of the result store

Primary keys are unique, the autoincrement counter is ahead of every
stored id, and — as `scalar_one_or_none` requires on every query the
pipeline issues — at most one row exists per (response, processor)
pair. -/

def resultKey (pr : ProcessingResult) : Int × Int :=
  (pr.questionnaire_response_id, pr.processor_id)

def DB.Wf (db : DB) : Prop :=
  (db.processing_results.map (fun pr => pr.id)).Nodup ∧
  (∀ pr ∈ db.processing_results, pr.id < db.next_result_id) ∧
  (db.processing_results.map resultKey).Nodup

instance (db : DB) : Decidable db.Wf := by
  unfold DB.Wf; infer_instance

/-- There is a stored result row for the (response, processor) pair. -/
def HasRow (db : DB) (rid pid : Int) : Prop :=
  ∃ pr ∈ db.processing_results,
    pr.questionnaire_response_id = rid ∧ pr.processor_id = pid

/-- Spec wording, for comparison with the code: the distinct *active*
processors bound (mapped) to questions of a questionnaire.  (The code's
grouping instead walks every mapping of each question that has at least
one active-processor mapping, so it can also pick up inactive
processors.) -/
def specActiveBoundProcessors (db : DB) (qid : Int) : List Int :=
  ((db.question_processor_mappings.filter (fun m =>
    (db.questions.any (fun q => q.id == m.question_id && q.questionnaire_id == qid)) &&
    (findProcessor db m.processor_id).elim false (fun p => p.is_active))).map
      (fun m => m.processor_id)).dedup

/-- Number of (processor, question-group) units one dispatch iterates. -/
def dispatchGroupCount (db : DB) (response_id : Int) : Nat :=
  match findResponse db response_id with
  | Option.none => 0
  | some qr =>
    (processorQuestions db (questionsWithProcessors db qr.questionnaire_id)).length

/-! ## Concrete fixtures (used by counterexamples and witnesses) -/

def procBase : Processor := {
  id := 100, is_active := true, prompt_template := "T",
  post_processing_code := Option.none, interpreter := InterpreterType.none,
  llm_temperature := some float07, llm_max_tokens := some 2000,
  llm_stop_sequences := Option.none, llm_system_prompt := Option.none }

/-- Scenario of P2: processor A (id 100) bound to questions 1 and 2,
processor B (id 200) bound to questions 2 and 3, both active, one
response (id 50) answering all three questions, empty result store. -/
def dbGrouping : DB := {
  questions := [
    { id := 1, questionnaire_id := 10, text := "Q1", type := "text" },
    { id := 2, questionnaire_id := 10, text := "Q2", type := "text" },
    { id := 3, questionnaire_id := 10, text := "Q3", type := "text" }],
  question_processor_mappings := [
    { id := 1, question_id := 1, processor_id := 100, is_active := true },
    { id := 2, question_id := 2, processor_id := 100, is_active := true },
    { id := 3, question_id := 2, processor_id := 200, is_active := true },
    { id := 4, question_id := 3, processor_id := 200, is_active := true }],
  processors := [procBase, { procBase with id := 200 }],
  questionnaire_responses := [{ id := 50, questionnaire_id := 10, user_id := 7 }],
  question_responses := [
    { id := 71, question_id := 1, questionnaire_response_id := 50, answer := PyVal.str "a1" },
    { id := 72, question_id := 2, questionnaire_response_id := 50, answer := PyVal.str "a2" },
    { id := 73, question_id := 3, questionnaire_response_id := 50, answer := PyVal.str "a3" }],
  processing_results := [],
  next_result_id := 1 }

/-- One question (id 1) with mappings to the active processor 100 and to
the *inactive* processor 300. -/
def dbInactive : DB := { dbGrouping with
  questions := [{ id := 1, questionnaire_id := 10, text := "Q1", type := "text" }],
  question_processor_mappings := [
    { id := 1, question_id := 1, processor_id := 100, is_active := true },
    { id := 2, question_id := 1, processor_id := 300, is_active := true }],
  processors := [procBase, { procBase with id := 300, is_active := false }],
  question_responses := [
    { id := 71, question_id := 1, questionnaire_response_id := 50, answer := PyVal.str "a1" }] }

/-- A stored `ProcessingResult` row for (response 50, processor 100). -/
def resultRow (status : String) (raw : Option String) : ProcessingResult := {
  id := 9, questionnaire_response_id := 50, processor_id := 100,
  processor_version := "deepseek-r1@v0.1", prompt := Option.none,
  raw_output := raw, processed_output := Option.none, status := status,
  error_message := Option.none, question_ids := [1],
  created_at := 0, updated_at := 0 }

/-- Single-question, single-processor database for worker runs. -/
def dbExec (p : Processor) (row : ProcessingResult) : DB := {
  questions := [{ id := 1, questionnaire_id := 10, text := "Q1", type := "text" }],
  question_processor_mappings := [
    { id := 1, question_id := 1, processor_id := 100, is_active := true }],
  processors := [p],
  questionnaire_responses := [{ id := 50, questionnaire_id := 10, user_id := 7 }],
  question_responses := [
    { id := 71, question_id := 1, questionnaire_response_id := 50, answer := PyVal.str "ans" }],
  processing_results := [row],
  next_result_id := 10 }

/-- Renderer oracle that renders every template to "PROMPT". -/
def renderOk : String → RenderContext → Except String String :=
  fun _ _ => Except.ok "PROMPT"

/-- Subprocess oracle: every child process exits 0 with stdout `s`. -/
def runGenOut (s : String) : SubprocessCall → SubprocessOutcome :=
  fun _ => SubprocessOutcome.completedProcess s ""

/-- Subprocess oracle under which generation succeeds (stdout "GEN-OUT")
but every sandbox script invocation (a call with a temp script) exits
non-zero with stderr "boom". -/
def runSandboxFail : SubprocessCall → SubprocessOutcome :=
  fun c =>
    if c.script.isSome then SubprocessOutcome.calledProcessError "boom"
    else SubprocessOutcome.completedProcess "GEN-OUT" ""

/-- A processor carrying post-processing code for the python sandbox. -/
def procSandboxPy : Processor := { procBase with
  post_processing_code := some "import json; raise SystemExit(1)",
  interpreter := InterpreterType.python }

/-- A processor with post-processing code but interpreter `none`. -/
def procSandboxNone : Processor := { procBase with
  post_processing_code := some "whatever", interpreter := InterpreterType.none }

/-- A processor whose stored generation parameters are explicit zeros. -/
def procZero : Processor := { procBase with
  llm_temperature := some 0, llm_max_tokens := some 0 }

/-- A previously failed row for (50, 100) carrying an error message,
ready to be re-dispatched. -/
def dbRedispatch : DB :=
  dbExec procBase { resultRow "failed" Option.none with error_message := some "boom" }

/-- Completed row for (response 50, processor `pid`) with primary key `i`. -/
def completedRowFor (i pid : Int) : ProcessingResult :=
  { resultRow "completed" (some "out") with id := i, processor_id := pid }

/-- Two active processors (100 on question 1, 200 on question 2), both
with completed rows for response 50 — the requeue-scoping scenario. -/
def dbRequeue : DB := {
  questions := [
    { id := 1, questionnaire_id := 10, text := "Q1", type := "text" },
    { id := 2, questionnaire_id := 10, text := "Q2", type := "text" }],
  question_processor_mappings := [
    { id := 1, question_id := 1, processor_id := 100, is_active := true },
    { id := 2, question_id := 2, processor_id := 200, is_active := true }],
  processors := [procBase, { procBase with id := 200 }],
  questionnaire_responses := [{ id := 50, questionnaire_id := 10, user_id := 7 }],
  question_responses := [
    { id := 71, question_id := 1, questionnaire_response_id := 50, answer := PyVal.str "a1" },
    { id := 72, question_id := 2, questionnaire_response_id := 50, answer := PyVal.str "a2" }],
  processing_results := [completedRowFor 8 100, completedRowFor 9 200],
  next_result_id := 10 }

/-! # Helper lemmas -/

/-- Replacing (by primary key) the row that `find?`-by-id located keeps
it the row that is found. -/
theorem find_replace_by_id (l : List ProcessingResult) (rid : Int)
    (pr0 pr : ProcessingResult) (h : l.find? (fun r => r.id == rid) = some pr0)
    (hid : pr.id = pr0.id) :
    (l.map (fun r => if r.id == pr.id then pr else r)).find?
      (fun r => r.id == rid) = some pr := by
  have hpr0 : (pr0.id == rid) = true := by
    have := List.find?_some h; exact this
  induction l with
  | nil => simp at h
  | cons a t ih =>
    rw [List.find?_cons] at h
    simp only [List.map_cons]
    rw [List.find?_cons]
    cases ha : (a.id == rid) with
    | true =>
      rw [ha] at h
      simp only [Option.some.injEq] at h
      subst h
      have hpid : (a.id == pr.id) = true := beq_iff_eq.mpr hid.symm
      rw [if_pos hpid]
      have hprid : (pr.id == rid) = true := by rw [hid]; exact hpr0
      rw [hprid]
    | false =>
      rw [ha] at h
      have hne : ¬ (a.id == pr.id) = true := by
        intro hcontra
        have haid : a.id = pr.id := beq_iff_eq.mp hcontra
        rw [hid] at haid
        rw [haid, hpr0] at ha
        exact Bool.true_eq_false.mp ha
      rw [if_neg hne, ha]
      exact ih h

/-- `setResult` version of `find_replace_by_id`. -/
theorem findResultById_setResult (db : DB) (rid : Int)
    (pr0 pr : ProcessingResult) (h : findResultById db rid = some pr0)
    (hid : pr.id = pr0.id) :
    findResultById (setResult db pr) rid = some pr :=
  find_replace_by_id db.processing_results rid pr0 pr h hid

theorem completeRow_id (processor : Processor) (pr1 : ProcessingResult)
    (result : GenResult) : (completeRow processor pr1 result).id = pr1.id := by
  unfold completeRow; split <;> rfl

theorem completeRow_status (processor : Processor) (pr1 : ProcessingResult)
    (result : GenResult) : (completeRow processor pr1 result).status = "completed" := by
  unfold completeRow; split <;> rfl

theorem completeRow_error (processor : Processor) (pr1 : ProcessingResult)
    (result : GenResult) :
    (completeRow processor pr1 result).error_message = pr1.error_message := by
  unfold completeRow; split <;> rfl

/-- Characterization of one worker run on an existing row: it always
ends in exactly one `setResult` of a row with the same primary key whose
status is terminal, and a fresh error message appears only together with
status `failed`. -/
theorem execute_processor_writes
    (render : String → RenderContext → Except String String)
    (run : SubprocessCall → SubprocessOutcome) (db : DB) (result_id : Int)
    (pr0 : ProcessingResult) (h : findResultById db result_id = some pr0) :
    ∃ pr', (execute_processor render run db result_id).1 = setResult db pr' ∧
      pr'.id = pr0.id ∧
      (pr'.status = "completed" ∨ pr'.status = "failed") ∧
      (pr'.error_message = pr0.error_message ∨ pr'.status = "failed") := by
  unfold execute_processor
  split
  · rename_i heq
    rw [h] at heq
    exact absurd heq (by simp)
  · rename_i prx heq
    rw [h] at heq
    injection heq with heq
    subst heq
    split
    · exact ⟨_, rfl, rfl, Or.inr rfl, Or.inr rfl⟩
    · split
      · exact ⟨_, rfl, rfl, Or.inr rfl, Or.inr rfl⟩
      · split
        · exact ⟨_, rfl, rfl, Or.inr rfl, Or.inr rfl⟩
        · unfold executeTry
          split
          · exact ⟨_, rfl, rfl, Or.inr rfl, Or.inr rfl⟩
          · unfold executeAfterGen
            split
            · exact ⟨_, rfl, rfl, Or.inr rfl, Or.inr rfl⟩
            · exact ⟨_, rfl, completeRow_id _ _ _,
                Or.inl (completeRow_status _ _ _),
                Or.inl (completeRow_error _ _ _)⟩

theorem setResult_map_id (db : DB) (pr : ProcessingResult) :
    (setResult db pr).processing_results.map (fun r => r.id)
      = db.processing_results.map (fun r => r.id) := by
  simp only [setResult, List.map_map]
  apply List.map_congr_left
  intro a _
  by_cases h : (a.id == pr.id) = true
  · simp only [Function.comp, if_pos h]
    exact (beq_iff_eq.mp h).symm
  · simp only [Function.comp, if_neg h]

theorem setResult_map_key (db : DB) (pr : ProcessingResult)
    (h : ∀ x ∈ db.processing_results, x.id = pr.id → resultKey x = resultKey pr) :
    (setResult db pr).processing_results.map resultKey
      = db.processing_results.map resultKey := by
  simp only [setResult, List.map_map]
  apply List.map_congr_left
  intro a ha
  by_cases hc : (a.id == pr.id) = true
  · simp only [Function.comp, if_pos hc]
    exact (h a ha (beq_iff_eq.mp hc)).symm
  · simp only [Function.comp, if_neg hc]

theorem setResult_length (db : DB) (pr : ProcessingResult) :
    (setResult db pr).processing_results.length
      = db.processing_results.length := by
  simp [setResult]

theorem mem_setResult_of_ne (db : DB) (pr x : ProcessingResult)
    (hx : x ∈ db.processing_results) (hne : x.id ≠ pr.id) :
    x ∈ (setResult db pr).processing_results := by
  refine List.mem_map.mpr ⟨x, hx, ?_⟩
  rw [if_neg]
  intro hc
  exact hne (beq_iff_eq.mp hc)

theorem mem_setResult_self (db : DB) (pr x : ProcessingResult)
    (hx : x ∈ db.processing_results) (hid : x.id = pr.id) :
    pr ∈ (setResult db pr).processing_results :=
  List.mem_map.mpr ⟨x, hx, if_pos (beq_iff_eq.mpr hid)⟩

theorem mem_addResult (db : DB) (pr x : ProcessingResult)
    (hx : x ∈ db.processing_results) :
    x ∈ (addResult db pr).processing_results := by
  simp [addResult]
  exact Or.inl hx

theorem findResult_some_facts (db : DB) (rid pid : Int) (pr : ProcessingResult)
    (h : findResult db rid pid = some pr) :
    pr ∈ db.processing_results ∧ pr.questionnaire_response_id = rid
      ∧ pr.processor_id = pid := by
  refine ⟨List.mem_of_find?_eq_some h, ?_, ?_⟩
  · have hp := List.find?_some h
    simp only [Bool.and_eq_true, beq_iff_eq] at hp
    exact hp.1
  · have hp := List.find?_some h
    simp only [Bool.and_eq_true, beq_iff_eq] at hp
    exact hp.2

theorem findResult_none_facts (db : DB) (rid pid : Int)
    (h : findResult db rid pid = Option.none) :
    ∀ pr ∈ db.processing_results,
      ¬ (pr.questionnaire_response_id = rid ∧ pr.processor_id = pid) := by
  intro pr hpr hk
  have := List.find?_eq_none.mp h pr hpr
  apply this
  simp only [Bool.and_eq_true, beq_iff_eq]
  exact hk

/-- With pairwise-distinct (response, processor) keys, a stored row is
exactly the row `findResult` returns for its own key. -/
theorem find_key_of_mem (l : List ProcessingResult)
    (hkeys : (l.map resultKey).Nodup) (pr : ProcessingResult) (hm : pr ∈ l) :
    l.find? (fun r =>
        r.questionnaire_response_id == pr.questionnaire_response_id &&
        r.processor_id == pr.processor_id) = some pr := by
  induction l with
  | nil => cases hm
  | cons a t ih =>
    rw [List.find?_cons]
    rcases List.mem_cons.mp hm with heq | hmt
    · subst heq
      have : (pr.questionnaire_response_id == pr.questionnaire_response_id &&
          pr.processor_id == pr.processor_id) = true := by simp
      rw [this]
    · have hkey_t : resultKey pr ∈ t.map resultKey :=
        List.mem_map.mpr ⟨pr, hmt, rfl⟩
      have hnd := List.nodup_cons.mp hkeys
      have hcond : (a.questionnaire_response_id == pr.questionnaire_response_id &&
          a.processor_id == pr.processor_id) = false := by
        by_contra hc
        have hc' : (a.questionnaire_response_id == pr.questionnaire_response_id &&
            a.processor_id == pr.processor_id) = true := by
          cases hb : (a.questionnaire_response_id == pr.questionnaire_response_id &&
              a.processor_id == pr.processor_id)
          · exact absurd hb hc
          · rfl
        simp only [Bool.and_eq_true, beq_iff_eq] at hc'
        have : resultKey a = resultKey pr := by
          unfold resultKey; rw [hc'.1, hc'.2]
        rw [this] at hnd
        exact hnd.1 hkey_t
      rw [hcond]
      exact ih hnd.2 hmt

theorem findResult_of_mem (db : DB) (pr : ProcessingResult)
    (hkeys : (db.processing_results.map resultKey).Nodup)
    (hm : pr ∈ db.processing_results) :
    findResult db pr.questionnaire_response_id pr.processor_id = some pr :=
  find_key_of_mem db.processing_results hkeys pr hm

theorem find?_append_some {α} (l l' : List α) (p : α → Bool) (x : α)
    (h : l.find? p = some x) : (l ++ l').find? p = some x := by
  rw [List.find?_append, h]
  rfl

theorem find?_filter_some {α} (l : List α) (p q : α → Bool) (x : α)
    (h : l.find? p = some x) (hq : q x = true) :
    (l.filter q).find? p = some x := by
  induction l with
  | nil => simp at h
  | cons a t ih =>
    rw [List.find?_cons] at h
    cases hp : p a with
    | true =>
      rw [hp] at h
      simp only [Option.some.injEq] at h
      subst h
      rw [List.filter_cons_of_pos hq, List.find?_cons, hp]
    | false =>
      rw [hp] at h
      by_cases hqa : q a = true
      · rw [List.filter_cons_of_pos hqa, List.find?_cons, hp]
        exact ih h
      · rw [List.filter_cons_of_neg hqa]
        exact ih h

/-- Two stored rows with the same id are the same row (unique ids). -/
theorem eq_of_mem_id (db : DB) (hids : (db.processing_results.map (fun r => r.id)).Nodup)
    (x y : ProcessingResult) (hx : x ∈ db.processing_results)
    (hy : y ∈ db.processing_results) (hid : x.id = y.id) : x = y :=
  List.inj_on_of_nodup_map hids hx hy hid

theorem setResult_wf (db : DB) (pr : ProcessingResult) (hwf : db.Wf)
    (ex : ProcessingResult) (hex : ex ∈ db.processing_results)
    (hid : pr.id = ex.id) (hkey : resultKey pr = resultKey ex) :
    (setResult db pr).Wf := by
  obtain ⟨hids, hbound, hkeys⟩ := hwf
  refine ⟨?_, ?_, ?_⟩
  · rw [setResult_map_id]
    exact hids
  · intro x hx
    obtain ⟨a, ha, hax⟩ := List.mem_map.mp hx
    by_cases hc : (a.id == pr.id) = true
    · rw [if_pos hc] at hax
      subst hax
      show pr.id < (setResult db pr).next_result_id
      rw [hid]
      exact hbound ex hex
    · rw [if_neg hc] at hax
      subst hax
      exact hbound a ha
  · rw [setResult_map_key]
    · exact hkeys
    · intro x hx hxid
      have : x = ex := eq_of_mem_id db hids x ex hx hex (by rw [hxid, hid])
      rw [this, hkey]

theorem addResult_wf (db : DB) (pr : ProcessingResult) (hwf : db.Wf)
    (hid : pr.id = db.next_result_id)
    (hkey : resultKey pr ∉ db.processing_results.map resultKey) :
    (addResult db pr).Wf := by
  obtain ⟨hids, hbound, hkeys⟩ := hwf
  refine ⟨?_, ?_, ?_⟩
  · show ((db.processing_results ++ [pr]).map (fun r => r.id)).Nodup
    rw [List.map_append]
    simp only [List.map_cons, List.map_nil]
    rw [List.nodup_append]
    refine ⟨hids, List.nodup_singleton _, ?_⟩
    intro i hi
    simp only [List.mem_singleton]
    intro hieq
    subst hieq
    obtain ⟨a, ha, haid⟩ := List.mem_map.mp hi
    have := hbound a ha
    rw [haid, hid] at this
    exact absurd rfl (ne_of_lt this)
  · intro x hx
    show x.id < db.next_result_id + 1
    rcases List.mem_append.mp hx with hold | hnew
    · exact lt_trans (hbound x hold) (lt_add_one _)
    · rw [List.mem_singleton.mp hnew, hid]
      exact lt_add_one _
  · show ((db.processing_results ++ [pr]).map resultKey).Nodup
    rw [List.map_append]
    simp only [List.map_cons, List.map_nil]
    rw [List.nodup_append]
    refine ⟨hkeys, List.nodup_singleton _, ?_⟩
    intro k hk
    simp only [List.mem_singleton]
    intro hkeq
    subst hkeq
    exact hkey hk

/-- The dispatcher loop leaves every table other than
`processing_results` / `next_result_id` untouched. -/
theorem dispatchGroups_frame (now : Nat) (r : Int)
    (gs : List (Int × List Question)) :
    ∀ db jobs,
      (dispatchGroups now r gs db jobs).1.questions = db.questions
      ∧ (dispatchGroups now r gs db jobs).1.question_processor_mappings
          = db.question_processor_mappings
      ∧ (dispatchGroups now r gs db jobs).1.processors = db.processors
      ∧ (dispatchGroups now r gs db jobs).1.questionnaire_responses
          = db.questionnaire_responses
      ∧ (dispatchGroups now r gs db jobs).1.question_responses
          = db.question_responses := by
  induction gs with
  | nil => intro db jobs; exact ⟨rfl, rfl, rfl, rfl, rfl⟩
  | cons g rest ih =>
    intro db jobs
    obtain ⟨pid, questions⟩ := g
    unfold dispatchGroups
    split
    · split
      · exact ih db jobs
      · exact ih (setResult db (updatedResult _ now questions)) _
    · exact ih (addResult db (newProcessingResult db now r pid questions)) _

theorem dispatchGroups_wf (now : Nat) (r : Int)
    (gs : List (Int × List Question)) :
    ∀ db jobs, db.Wf → (dispatchGroups now r gs db jobs).1.Wf := by
  induction gs with
  | nil => intro db jobs hwf; exact hwf
  | cons g rest ih =>
    intro db jobs hwf
    obtain ⟨pid, questions⟩ := g
    unfold dispatchGroups
    split
    · rename_i ex hfind
      split
      · exact ih db jobs hwf
      · refine ih _ _ (setResult_wf db _ hwf ex
          (findResult_some_facts db r pid ex hfind).1 rfl rfl)
    · rename_i hfind
      refine ih _ _ (addResult_wf db _ hwf rfl ?_)
      intro hk
      obtain ⟨a, ha, hak⟩ := List.mem_map.mp hk
      have hfacts := findResult_none_facts db r pid hfind a ha
      apply hfacts
      have := congrArg Prod.fst hak
      have h2 := congrArg Prod.snd hak
      exact ⟨this, h2⟩

theorem hasRow_setResult (db : DB) (pr ex : ProcessingResult) (rid pid : Int)
    (hids : (db.processing_results.map (fun r => r.id)).Nodup)
    (hex : ex ∈ db.processing_results) (hid : pr.id = ex.id)
    (hkey : resultKey pr = resultKey ex) (h : HasRow db rid pid) :
    HasRow (setResult db pr) rid pid := by
  obtain ⟨w, hw, hwr, hwp⟩ := h
  by_cases hc : w.id = pr.id
  · have hwex : w = ex := eq_of_mem_id db hids w ex hw hex (by rw [hc, hid])
    refine ⟨pr, mem_setResult_self db pr w hw hc, ?_, ?_⟩
    · rw [hwex] at hwr
      show pr.questionnaire_response_id = rid
      rw [show pr.questionnaire_response_id = (resultKey pr).1 from rfl, hkey]
      exact hwr
    · rw [hwex] at hwp
      show pr.processor_id = pid
      rw [show pr.processor_id = (resultKey pr).2 from rfl, hkey]
      exact hwp
  · exact ⟨w, mem_setResult_of_ne db pr w hw hc, hwr, hwp⟩

theorem hasRow_addResult (db : DB) (pr : ProcessingResult) (rid pid : Int)
    (h : HasRow db rid pid) : HasRow (addResult db pr) rid pid := by
  obtain ⟨w, hw, hwr, hwp⟩ := h
  exact ⟨w, mem_addResult db pr w hw, hwr, hwp⟩

theorem dispatchGroups_hasRow_mono (now : Nat) (r : Int)
    (gs : List (Int × List Question)) :
    ∀ db jobs rid pid, db.Wf → HasRow db rid pid →
      HasRow (dispatchGroups now r gs db jobs).1 rid pid := by
  induction gs with
  | nil => intro db jobs rid pid _ h; exact h
  | cons g rest ih =>
    intro db jobs rid pid hwf h
    obtain ⟨gpid, questions⟩ := g
    unfold dispatchGroups
    split
    · rename_i ex hfind
      split
      · exact ih db jobs rid pid hwf h
      · have hexmem := (findResult_some_facts db r gpid ex hfind).1
        exact ih _ _ rid pid
          (setResult_wf db _ hwf ex hexmem rfl rfl)
          (hasRow_setResult db _ ex rid pid hwf.1 hexmem rfl rfl h)
    · rename_i hfind
      refine ih _ _ rid pid ?_ (hasRow_addResult db _ rid pid h)
      refine addResult_wf db _ hwf rfl ?_
      intro hk
      obtain ⟨a, ha, hak⟩ := List.mem_map.mp hk
      exact findResult_none_facts db r gpid hfind a ha
        ⟨congrArg Prod.fst hak, congrArg Prod.snd hak⟩

/-- The well-formedness side conditions of the two upsert forms, packaged. -/
theorem update_wf (db : DB) (now : Nat) (questions : List Question)
    (ex : ProcessingResult) (hwf : db.Wf) (hexmem : ex ∈ db.processing_results) :
    (setResult db (updatedResult ex now questions)).Wf :=
  setResult_wf db (updatedResult ex now questions) hwf ex hexmem rfl rfl

theorem insert_wf (db : DB) (now : Nat) (r pid : Int) (questions : List Question)
    (hwf : db.Wf) (hfind : findResult db r pid = Option.none) :
    (addResult db (newProcessingResult db now r pid questions)).Wf := by
  refine addResult_wf db _ hwf rfl ?_
  intro hk
  obtain ⟨a, ha, hak⟩ := List.mem_map.mp hk
  exact findResult_none_facts db r pid hfind a ha
    ⟨congrArg Prod.fst hak, congrArg Prod.snd hak⟩

/-- After the dispatcher loop, every group key has a stored row. -/
theorem dispatchGroups_hasRow (now : Nat) (r : Int)
    (gs : List (Int × List Question)) :
    ∀ db jobs, db.Wf → ∀ g ∈ gs,
      HasRow (dispatchGroups now r gs db jobs).1 r g.1 := by
  induction gs with
  | nil => intro db jobs _ g hg; cases hg
  | cons g0 rest ih =>
    intro db jobs hwf g hg
    rcases List.mem_cons.mp hg with hgeq | hgrest
    · subst hgeq
      obtain ⟨gpid, questions⟩ := g
      unfold dispatchGroups
      split
      · rename_i ex hfind
        obtain ⟨hexmem, hexr, hexp⟩ := findResult_some_facts db r gpid ex hfind
        split
        · exact dispatchGroups_hasRow_mono now r rest db jobs r gpid hwf
            ⟨ex, hexmem, hexr, hexp⟩
        · exact dispatchGroups_hasRow_mono now r rest _ _ r gpid
            (update_wf db now questions ex hwf hexmem)
            (hasRow_setResult db (updatedResult ex now questions) ex r gpid
              hwf.1 hexmem rfl rfl ⟨ex, hexmem, hexr, hexp⟩)
      · rename_i hfind
        refine dispatchGroups_hasRow_mono now r rest _ _ r gpid
          (insert_wf db now r gpid questions hwf hfind) ?_
        refine ⟨newProcessingResult db now r gpid questions, ?_, rfl, rfl⟩
        simp [addResult]
    · obtain ⟨gpid, questions⟩ := g0
      unfold dispatchGroups
      split
      · rename_i ex hfind
        split
        · exact ih db jobs hwf g hgrest
        · exact ih _ _ (update_wf db now questions ex hwf
            (findResult_some_facts db r gpid ex hfind).1) g hgrest
      · rename_i hfind
        exact ih _ _ (insert_wf db now r gpid questions hwf hfind) g hgrest

/-- When every group key already has a row, the loop creates none. -/
theorem dispatchGroups_length_of_hasRow (now : Nat) (r : Int)
    (gs : List (Int × List Question)) :
    ∀ db jobs, db.Wf → (∀ g ∈ gs, HasRow db r g.1) →
      (dispatchGroups now r gs db jobs).1.processing_results.length
        = db.processing_results.length := by
  induction gs with
  | nil => intro db jobs _ _; rfl
  | cons g0 rest ih =>
    intro db jobs hwf hall
    obtain ⟨gpid, questions⟩ := g0
    unfold dispatchGroups
    split
    · rename_i ex hfind
      have hexmem := (findResult_some_facts db r gpid ex hfind).1
      split
      · exact ih db jobs hwf (fun g hg => hall g (List.mem_cons_of_mem _ hg))
      · rw [ih (setResult db (updatedResult ex now questions)) _
          (update_wf db now questions ex hwf hexmem)
          (fun g hg => hasRow_setResult db (updatedResult ex now questions) ex
            r g.1 hwf.1 hexmem rfl rfl (hall g (List.mem_cons_of_mem _ hg)))]
        exact setResult_length db _
    · rename_i hfind
      exfalso
      obtain ⟨w, hw, hwr, hwp⟩ := hall (gpid, questions) (List.mem_cons_self _ _)
      exact findResult_none_facts db r gpid hfind w hw ⟨hwr, hwp⟩

/-- Each loop step adds at most one row. -/
theorem dispatchGroups_length_le (now : Nat) (r : Int)
    (gs : List (Int × List Question)) :
    ∀ db jobs,
      (dispatchGroups now r gs db jobs).1.processing_results.length
        ≤ db.processing_results.length + gs.length := by
  induction gs with
  | nil => intro db jobs; simp [dispatchGroups]
  | cons g0 rest ih =>
    intro db jobs
    obtain ⟨gpid, questions⟩ := g0
    simp only [List.length_cons]
    unfold dispatchGroups
    split
    · split
      · calc (dispatchGroups now r rest db jobs).1.processing_results.length
            ≤ db.processing_results.length + rest.length := ih db jobs
          _ ≤ db.processing_results.length + (rest.length + 1) := by omega
      · rename_i ex hfind hst
        calc (dispatchGroups now r rest
              (setResult db (updatedResult ex now questions)) _).1.processing_results.length
            ≤ (setResult db (updatedResult ex now questions)).processing_results.length
              + rest.length := ih _ _
          _ = db.processing_results.length + rest.length := by
              rw [setResult_length]
          _ ≤ db.processing_results.length + (rest.length + 1) := by omega
    · calc (dispatchGroups now r rest
            (addResult db (newProcessingResult db now r gpid questions)) _).1.processing_results.length
          ≤ (addResult db (newProcessingResult db now r gpid questions)).processing_results.length
            + rest.length := ih _ _
        _ = db.processing_results.length + 1 + rest.length := by
            simp [addResult]
        _ ≤ db.processing_results.length + (rest.length + 1) := by omega

/-- A `completed` stored row is left untouched by the dispatcher loop and
never has a job enqueued for it. -/
theorem dispatchGroups_completed_preserved (now : Nat) (r : Int)
    (gs : List (Int × List Question)) :
    ∀ db jobs pr, db.Wf → pr ∈ db.processing_results → pr.status = "completed" →
      pr ∈ (dispatchGroups now r gs db jobs).1.processing_results ∧
      (∀ j ∈ (dispatchGroups now r gs db jobs).2,
        j ∈ jobs ∨ j ≠ Job.executeJob pr.id) := by
  induction gs with
  | nil =>
    intro db jobs pr _ hm _
    exact ⟨hm, fun j hj => Or.inl hj⟩
  | cons g0 rest ih =>
    intro db jobs pr hwf hm hst
    obtain ⟨gpid, questions⟩ := g0
    unfold dispatchGroups
    split
    · rename_i ex hfind
      split
      · exact ih db jobs pr hwf hm hst
      · rename_i hexst
        have hexne : ex ≠ pr := by
          intro hcontra
          apply hexst
          rw [hcontra, hst]
          rfl
        have hexmem := (findResult_some_facts db r gpid ex hfind).1
        have hidne : pr.id ≠ ex.id := by
          intro hcontra
          exact hexne (eq_of_mem_id db hwf.1 ex pr hexmem hm hcontra.symm)
        have hmem' : pr ∈ (setResult db (updatedResult ex now questions)).processing_results :=
          mem_setResult_of_ne db (updatedResult ex now questions) pr hm hidne
        obtain ⟨ha, hb⟩ := ih (setResult db (updatedResult ex now questions))
          (jobs ++ [Job.executeJob (updatedResult ex now questions).id]) pr
          (update_wf db now questions ex hwf hexmem) hmem' hst
        refine ⟨ha, ?_⟩
        intro j hj
        rcases hb j hj with hjin | hjne
        · rcases List.mem_append.mp hjin with hjl | hjr
          · exact Or.inl hjl
          · refine Or.inr ?_
            rw [List.mem_singleton.mp hjr]
            intro hcontra
            injection hcontra with hcontra
            exact hidne hcontra.symm
        · exact Or.inr hjne
    · rename_i hfind
      have hidne : pr.id ≠ (newProcessingResult db now r gpid questions).id := by
        have := hwf.2.1 pr hm
        intro hcontra
        rw [hcontra] at this
        exact absurd rfl (ne_of_lt this)
      have hmem' : pr ∈ (addResult db (newProcessingResult db now r gpid questions)).processing_results :=
        mem_addResult db _ pr hm
      obtain ⟨ha, hb⟩ := ih _ _ pr
        (insert_wf db now r gpid questions hwf hfind) hmem' hst
      refine ⟨ha, ?_⟩
      intro j hj
      rcases hb j hj with hjin | hjne
      · rcases List.mem_append.mp hjin with hjl | hjr
        · exact Or.inl hjl
        · refine Or.inr ?_
          rw [List.mem_singleton.mp hjr]
          intro hcontra
          injection hcontra with hcontra
          exact hidne hcontra.symm
      · exact Or.inr hjne

/-- A stored row whose (response, processor) key matches no group of the
loop is carried through unchanged. -/
theorem dispatchGroups_mem_frame (now : Nat) (r : Int)
    (gs : List (Int × List Question)) :
    ∀ db jobs pr, db.Wf → pr ∈ db.processing_results →
      (∀ g ∈ gs, ¬ (pr.questionnaire_response_id = r ∧ pr.processor_id = g.1)) →
      pr ∈ (dispatchGroups now r gs db jobs).1.processing_results := by
  induction gs with
  | nil => intro db jobs pr _ hm _; exact hm
  | cons g0 rest ih =>
    intro db jobs pr hwf hm hkeys
    obtain ⟨gpid, questions⟩ := g0
    have hhead := hkeys (gpid, questions) (List.mem_cons_self _ _)
    have hrest := fun g hg => hkeys g (List.mem_cons_of_mem _ hg)
    unfold dispatchGroups
    split
    · rename_i ex hfind
      obtain ⟨hexmem, hexr, hexp⟩ := findResult_some_facts db r gpid ex hfind
      have hexne : ex ≠ pr := by
        intro hcontra
        subst hcontra
        exact hhead ⟨hexr, hexp⟩
      split
      · exact ih db jobs pr hwf hm hrest
      · have hidne : pr.id ≠ ex.id := by
          intro hcontra
          exact hexne (eq_of_mem_id db hwf.1 ex pr hexmem hm hcontra.symm)
        exact ih _ _ pr (update_wf db now questions ex hwf hexmem)
          (mem_setResult_of_ne db (updatedResult ex now questions) pr hm hidne)
          hrest
    · rename_i hfind
      exact ih _ _ pr (insert_wf db now r gpid questions hwf hfind)
        (mem_addResult db _ pr hm) hrest

/-- A stored, non-completed row whose key matches a group is updated in
place: its status is reset to `processing`, its question-id list and
timestamp refreshed, and everything else — including `error_message` —
kept. -/
theorem dispatchGroups_updates_row (now : Nat) (r : Int)
    (gs : List (Int × List Question)) :
    ∀ db jobs pr qs, db.Wf → (gs.map Prod.fst).Nodup →
      pr ∈ db.processing_results → pr.questionnaire_response_id = r →
      pr.status ≠ "completed" → (pr.processor_id, qs) ∈ gs →
      updatedResult pr now qs ∈ (dispatchGroups now r gs db jobs).1.processing_results := by
  induction gs with
  | nil => intro db jobs pr qs _ _ _ _ _ hmem; cases hmem
  | cons g0 rest ih =>
    intro db jobs pr qs hwf hnd hm hr hst hmem
    obtain ⟨gpid, questions⟩ := g0
    have hnd' := List.nodup_cons.mp hnd
    rcases List.mem_cons.mp hmem with hhead | hrest
    · have hgpid : gpid = pr.processor_id := (congrArg Prod.fst hhead).symm
      have hqs : qs = questions := congrArg Prod.snd hhead
      subst hgpid
      subst hqs
      have hfindpr : findResult db r pr.processor_id = some pr := by
        have := findResult_of_mem db pr hwf.2.2 hm
        rw [hr] at this
        exact this
      unfold dispatchGroups
      split
      · rename_i ex hfind
        rw [hfindpr] at hfind
        injection hfind with hfind
        subst hfind
        split
        · rename_i hstc
          exact absurd (beq_iff_eq.mp hstc) hst
        · have hmem1 : updatedResult pr now qs
              ∈ (setResult db (updatedResult pr now qs)).processing_results :=
            mem_setResult_self db (updatedResult pr now qs) pr hm rfl
          refine dispatchGroups_mem_frame now r rest _ _ _
            (update_wf db now qs pr hwf hm) hmem1 ?_
          intro g hg hk
          apply hnd'.1
          have hg1 : g.1 = pr.processor_id := hk.2.symm
          exact List.mem_map.mpr ⟨g, hg, hg1⟩
      · rename_i hfind
        rw [hfindpr] at hfind
        cases hfind
    · have hne : gpid ≠ pr.processor_id := by
        intro hcontra
        apply hnd'.1
        rw [hcontra]
        exact List.mem_map.mpr ⟨(pr.processor_id, qs), hrest, rfl⟩
      unfold dispatchGroups
      split
      · rename_i ex hfind
        obtain ⟨hexmem, hexr, hexp⟩ := findResult_some_facts db r gpid ex hfind
        split
        · exact ih db jobs pr qs hwf hnd'.2 hm hr hst hrest
        · have hexne : ex ≠ pr := by
            intro hcontra
            subst hcontra
            exact hne hexp.symm
          have hidne : pr.id ≠ ex.id := by
            intro hcontra
            exact hexne (eq_of_mem_id db hwf.1 ex pr hexmem hm hcontra.symm)
          exact ih _ _ pr qs (update_wf db now questions ex hwf hexmem) hnd'.2
            (mem_setResult_of_ne db (updatedResult ex now questions) pr hm hidne)
            hr hst hrest
      · rename_i hfind
        exact ih _ _ pr qs (insert_wf db now r gpid questions hwf hfind) hnd'.2
          (mem_addResult db _ pr hm) hr hst hrest

theorem addToGroup_keys (groups : List (Int × List Question)) (pid : Int)
    (q : Question) :
    (addToGroup groups pid q).map Prod.fst =
      if groups.any (fun g => g.1 == pid) then groups.map Prod.fst
      else groups.map Prod.fst ++ [pid] := by
  by_cases hc : groups.any (fun g => g.1 == pid) = true
  · rw [addToGroup, if_pos hc, if_pos hc, List.map_map]
    apply List.map_congr_left
    intro g _
    by_cases hg : (g.1 == pid) = true
    · simp only [Function.comp, if_pos hg]
    · simp only [Function.comp, if_neg hg]
  · rw [addToGroup, if_neg hc, if_neg hc, List.map_append]
    rfl

theorem addToGroup_keys_nodup (groups : List (Int × List Question)) (pid : Int)
    (q : Question) (h : (groups.map Prod.fst).Nodup) :
    ((addToGroup groups pid q).map Prod.fst).Nodup := by
  rw [addToGroup_keys]
  by_cases hc : groups.any (fun g => g.1 == pid) = true
  · rw [if_pos hc]; exact h
  · rw [if_neg hc]
    rw [List.nodup_append]
    refine ⟨h, List.nodup_singleton _, ?_⟩
    intro k hk
    simp only [List.mem_singleton]
    intro hkeq
    obtain ⟨g, hg, hgk⟩ := List.mem_map.mp hk
    exact hc (List.any_eq_true.mpr ⟨g, hg, beq_iff_eq.mpr (hgk.trans hkeq)⟩)

theorem foldl_addToGroup_keys_nodup (q : Question)
    (ms : List QuestionProcessorMapping) :
    ∀ groups, ((groups.map Prod.fst : List Int)).Nodup →
      ((ms.foldl (fun gs m => addToGroup gs m.processor_id q) groups).map
        Prod.fst).Nodup := by
  induction ms with
  | nil => intro groups h; exact h
  | cons m rest ih =>
    intro groups h
    exact ih (addToGroup groups m.processor_id q)
      (addToGroup_keys_nodup groups m.processor_id q h)

/-- The processor keys of the dispatcher's grouping are pairwise
distinct (the grouping is a Python dict keyed by processor id). -/
theorem processorQuestions_keys_nodup (db : DB) (qs : List Question) :
    ((processorQuestions db qs).map Prod.fst).Nodup := by
  unfold processorQuestions
  suffices h : ∀ groups, ((groups.map Prod.fst : List Int)).Nodup →
      ((qs.foldl (fun groups q => (processorMappingsOf db q).foldl
        (fun groups m => addToGroup groups m.processor_id q) groups) groups).map
          Prod.fst).Nodup by
    exact h [] (List.nodup_nil)
  induction qs with
  | nil => intro groups h; exact h
  | cons q rest ih =>
    intro groups h
    exact ih _ (foldl_addToGroup_keys_nodup q (processorMappingsOf db q) groups h)

theorem findResponse_congr (db db' : DB) (r : Int)
    (h : db'.questionnaire_responses = db.questionnaire_responses) :
    findResponse db' r = findResponse db r := by
  unfold findResponse; rw [h]

theorem questionsWithProcessors_congr (db db' : DB) (qid : Int)
    (hq : db'.questions = db.questions)
    (hm : db'.question_processor_mappings = db.question_processor_mappings)
    (hp : db'.processors = db.processors) :
    questionsWithProcessors db' qid = questionsWithProcessors db qid := by
  unfold questionsWithProcessors processorMappingsOf findProcessor
  rw [hq, hm, hp]

theorem processorQuestions_congr (db db' : DB) (qs : List Question)
    (hm : db'.question_processor_mappings = db.question_processor_mappings) :
    processorQuestions db' qs = processorQuestions db qs := by
  unfold processorQuestions processorMappingsOf
  rw [hm]

/-- If every group's key has a `completed` row, the loop is the
identity: nothing is written and nothing is enqueued. -/
theorem dispatchGroups_all_completed (now : Nat) (r : Int)
    (gs : List (Int × List Question)) :
    ∀ db jobs,
      (∀ g ∈ gs, ∃ ex, findResult db r g.1 = some ex ∧ ex.status = "completed") →
      dispatchGroups now r gs db jobs = (db, jobs) := by
  induction gs with
  | nil => intro db jobs _; rfl
  | cons g0 rest ih =>
    intro db jobs hall
    obtain ⟨gpid, questions⟩ := g0
    obtain ⟨ex, hfind, hst⟩ := hall (gpid, questions) (List.mem_cons_self _ _)
    unfold dispatchGroups
    split
    · rename_i ex' hfind'
      rw [hfind'] at hfind
      injection hfind with hfind
      subst hfind
      split
      · exact ih db jobs (fun g hg => hall g (List.mem_cons_of_mem _ hg))
      · rename_i hstc
        exact absurd (beq_iff_eq.mpr hst) hstc
    · rename_i hfind'
      rw [hfind'] at hfind
      cases hfind

/-- If exactly one group key (P) lacks a row and every other group's row
is `completed`, the loop inserts exactly P's fresh row and enqueues
exactly one job, carrying the fresh row's id. -/
theorem dispatchGroups_single_fresh (now : Nat) (r P : Int)
    (qsP : List Question) (gs1 gs2 : List (Int × List Question)) :
    ∀ db jobs,
      (∀ g ∈ gs1, ∃ ex, findResult db r g.1 = some ex ∧ ex.status = "completed") →
      (∀ g ∈ gs2, ∃ ex, findResult db r g.1 = some ex ∧ ex.status = "completed") →
      findResult db r P = Option.none →
      dispatchGroups now r (gs1 ++ (P, qsP) :: gs2) db jobs =
        (addResult db (newProcessingResult db now r P qsP),
          jobs ++ [Job.executeJob db.next_result_id]) := by
  induction gs1 with
  | nil =>
    intro db jobs _ h2 hnone
    rw [List.nil_append]
    unfold dispatchGroups
    split
    · rename_i ex' hfind'
      rw [hfind'] at hnone
      cases hnone
    · apply dispatchGroups_all_completed
      intro g hg
      obtain ⟨ex, hfind, hst⟩ := h2 g hg
      refine ⟨ex, ?_, hst⟩
      show ((db.processing_results ++ [newProcessingResult db now r P qsP]).find?
        (fun pr => pr.questionnaire_response_id == r && pr.processor_id == g.1)) = some ex
      exact find?_append_some _ _ _ ex hfind
  | cons g0 gs1' ih =>
    intro db jobs h1 h2 hnone
    obtain ⟨gpid, questions⟩ := g0
    obtain ⟨ex, hfind, hst⟩ := h1 (gpid, questions) (List.mem_cons_self _ _)
    rw [List.cons_append]
    unfold dispatchGroups
    split
    · rename_i ex' hfind'
      rw [hfind'] at hfind
      injection hfind with hfind
      subst hfind
      split
      · exact ih db jobs (fun g hg => h1 g (List.mem_cons_of_mem _ hg)) h2 hnone
      · rename_i hstc
        exact absurd (beq_iff_eq.mpr hst) hstc
    · rename_i hfind'
      rw [hfind'] at hfind
      cases hfind

/-- Rows whose ids are at or above a threshold below which all of the
original db's ids lie — i.e. rows the loop itself wrote — carry a null
`error_message` and status `processing`. -/
theorem dispatchGroups_new_rows_clean (now : Nat) (r : Int) (N : Int)
    (gs : List (Int × List Question)) :
    ∀ db jobs,
      (∀ pr ∈ db.processing_results, N ≤ pr.id →
        pr.error_message = Option.none ∧ pr.status = "processing") →
      ∀ pr ∈ (dispatchGroups now r gs db jobs).1.processing_results, N ≤ pr.id →
        pr.error_message = Option.none ∧ pr.status = "processing" := by
  induction gs with
  | nil => intro db jobs hinv; exact hinv
  | cons g0 rest ih =>
    intro db jobs hinv
    obtain ⟨gpid, questions⟩ := g0
    unfold dispatchGroups
    split
    · rename_i ex hfind
      have hexmem := (findResult_some_facts db r gpid ex hfind).1
      split
      · exact ih db jobs hinv
      · refine ih _ _ ?_
        intro x hx hNx
        obtain ⟨a, ha, hax⟩ := List.mem_map.mp hx
        by_cases hc : (a.id == (updatedResult ex now questions).id) = true
        · rw [if_pos hc] at hax
          subst hax
          have hNex : N ≤ ex.id := hNx
          obtain ⟨he, -⟩ := hinv ex hexmem hNex
          exact ⟨he, rfl⟩
        · rw [if_neg hc] at hax
          subst hax
          exact hinv a ha hNx
    · rename_i hfind
      refine ih _ _ ?_
      intro x hx hNx
      rcases List.mem_append.mp hx with hold | hnew
      · exact hinv x hold hNx
      · rw [List.mem_singleton.mp hnew]
        exact ⟨rfl, rfl⟩

/-! Equational forms of the dispatcher's three top-level branches. -/

theorem dispatch_none_eq (db : DB) (now : Nat) (r : Int)
    (hresp : findResponse db r = Option.none) :
    process_questionnaire_response db now r
      = (db, [], TaskOutcome.error "Questionnaire response not found") := by
  unfold process_questionnaire_response
  split
  · rfl
  · rename_i qr heq
    rw [hresp] at heq
    cases heq

theorem dispatch_empty_eq (db : DB) (now : Nat) (r : Int)
    (qr : QuestionnaireResponse) (hresp : findResponse db r = some qr)
    (hemp : (questionsWithProcessors db qr.questionnaire_id).isEmpty = true) :
    process_questionnaire_response db now r
      = (db, [], TaskOutcome.message "No processors assigned") := by
  unfold process_questionnaire_response
  split
  · rename_i heq
    rw [hresp] at heq
    cases heq
  · rename_i qr' heq
    rw [hresp] at heq
    injection heq with heq
    subst heq
    rw [if_pos hemp]

theorem dispatch_run_eq (db : DB) (now : Nat) (r : Int)
    (qr : QuestionnaireResponse) (hresp : findResponse db r = some qr)
    (hemp : (questionsWithProcessors db qr.questionnaire_id).isEmpty = false) :
    process_questionnaire_response db now r
      = ((dispatchRun db now r (questionsWithProcessors db qr.questionnaire_id)).1,
          (dispatchRun db now r (questionsWithProcessors db qr.questionnaire_id)).2,
          TaskOutcome.message
            ("Queued processing with "
              ++ toString (questionsWithProcessors db qr.questionnaire_id).length
              ++ " questions")) := by
  unfold process_questionnaire_response
  split
  · rename_i heq
    rw [hresp] at heq
    cases heq
  · rename_i qr' heq
    rw [hresp] at heq
    injection heq with heq
    subst heq
    rw [if_neg (by rw [hemp]; exact Bool.false_ne_true)]

theorem requeue_some_eq (db : DB) (r P : Int) (qr : QuestionnaireResponse)
    (exP : ProcessingResult) (hresp : findResponse db r = some qr) (hP : P ≠ 0)
    (hex : findResult db r P = some exP) :
    requeue_processing db r (some P)
      = ({ db with processing_results :=
            db.processing_results.filter (fun pr => pr.id != exP.id) },
          [Job.dispatchJob r],
          TaskOutcome.message
            ("Requeued response " ++ toString r ++ " for processing")) := by
  unfold requeue_processing
  split
  · rename_i heq
    rw [hresp] at heq
    cases heq
  · unfold requeueDelete
    rw [if_pos (show pyTruthyInt (some P) = true by simp [pyTruthyInt, hP])]
    simp only [Option.getD_some]
    rw [hex]

/-- Deleting the row `findResult` found for (r, P) — by primary key — is
the same as deleting by (response, processor) key. -/
theorem filter_delete_eq (db : DB) (r P : Int) (exP : ProcessingResult)
    (hwf : db.Wf) (hex : findResult db r P = some exP) :
    db.processing_results.filter (fun pr => pr.id != exP.id)
      = db.processing_results.filter (fun pr =>
          !(pr.questionnaire_response_id == r && pr.processor_id == P)) := by
  obtain ⟨hexm, hexr, hexp⟩ := findResult_some_facts db r P exP hex
  apply List.filter_congr
  intro x hx
  by_cases hc : x = exP
  · subst hc
    show (x.id != x.id)
      = !(x.questionnaire_response_id == r && x.processor_id == P)
    rw [hexr, hexp]
    simp
  · have h1 : (x.id != exP.id) = true := by
      rw [bne_iff_ne]
      intro hcontra
      exact hc (eq_of_mem_id db hwf.1 x exP hx hexm hcontra)
    rw [h1]
    cases hb : (x.questionnaire_response_id == r && x.processor_id == P) with
    | false => rw [Bool.not_false]
    | true =>
      exfalso
      simp only [Bool.and_eq_true, beq_iff_eq] at hb
      have hkey : resultKey x = resultKey exP := by
        unfold resultKey
        rw [hb.1, hb.2, hexr, hexp]
      exact hc (List.inj_on_of_nodup_map hwf.2.2 hx hexm hkey)

/-- A filtered result store stays well-formed. -/
theorem filter_wf (db : DB) (q : ProcessingResult → Bool) (hwf : db.Wf) :
    ({ db with processing_results := db.processing_results.filter q } : DB).Wf := by
  obtain ⟨hids, hbound, hkeys⟩ := hwf
  refine ⟨?_, ?_, ?_⟩
  · exact ((List.filter_sublist db.processing_results).map _).nodup hids
  · intro x hx
    exact hbound x (List.mem_filter.mp hx).1
  · exact ((List.filter_sublist db.processing_results).map _).nodup hkeys

/-! # Claim theorems -/

/-- C1: for every invocation of the Worker on a result id whose
`ProcessingResult` row exists, the persisted status of that row after
`execute_processor` returns is exactly "completed" or "failed" — never
"pending" or "processing" — on every execution path (any processor /
response / question-response load outcome, any renderer outcome, any
generation outcome). -/
theorem execute_terminal_status
    (render : String → RenderContext → Except String String)
    (run : SubprocessCall → SubprocessOutcome) (db : DB) (result_id : Int)
    (pr0 : ProcessingResult) (h : findResultById db result_id = some pr0) :
    ∃ pr', findResultById (execute_processor render run db result_id).1 result_id
        = some pr' ∧ (pr'.status = "completed" ∨ pr'.status = "failed") := by
  obtain ⟨pr', hdb, hid, hstat, -⟩ :=
    execute_processor_writes render run db result_id pr0 h
  refine ⟨pr', ?_, hstat⟩
  rw [hdb]
  exact findResultById_setResult db result_id pr0 pr' h hid

/-- Witness for C1: a concrete worker run on row 9 of a one-question
database ends with a terminal status. -/
theorem execute_terminal_status_witness :
    ∃ pr', findResultById (execute_processor renderOk (runGenOut "G")
          (dbExec procBase (resultRow "processing" Option.none)) 9).1 9
        = some pr' ∧ (pr'.status = "completed" ∨ pr'.status = "failed") :=
  execute_terminal_status renderOk (runGenOut "G")
    (dbExec procBase (resultRow "processing" Option.none)) 9
    (resultRow "processing" Option.none) (by decide)

/-- C2, counterexample: in the P2 scenario (processor 100 bound to
questions {1,2}, processor 200 bound to {2,3}, all active, response 50
answering all three), dispatch produces two rows whose `question_ids`
are [1,2,2] and [2,2,3] — the multiply-bound question 2 is duplicated —
so no row has `question_ids` = [1,2] and the lists are not
duplicate-free, contrary to the claim. -/
theorem dispatch_grouping_counterexample :
    ((process_questionnaire_response dbGrouping 0 50).1.processing_results.map
        (fun pr => pr.question_ids) = [[1, 2, 2], [2, 2, 3]])
    ∧ ¬ (∃ pr ∈ (process_questionnaire_response dbGrouping 0 50).1.processing_results,
        pr.question_ids = [1, 2])
    ∧ ¬ (∀ pr ∈ (process_questionnaire_response dbGrouping 0 50).1.processing_results,
        pr.question_ids.Nodup) := by
  decide

/-- C2, amended: in the P2 scenario dispatch produces exactly two rows,
for processor 100 with `question_ids` [1,2,2] and for processor 200 with
[2,2,3] (a question bound to several active processors is contributed
once per such binding, because the join yields one row per
question-mapping pair and the grouping walks each row's full mapping
list), each row upserted with status "processing" and one execute job
enqueued per row. -/
theorem dispatch_grouping_duplicates :
    ((process_questionnaire_response dbGrouping 0 50).1.processing_results.map
        (fun pr => (pr.processor_id, pr.question_ids, pr.status))
      = [(100, [1, 2, 2], "processing"), (200, [2, 2, 3], "processing")])
    ∧ (process_questionnaire_response dbGrouping 0 50).2.1
      = [Job.executeJob 1, Job.executeJob 2] := by
  decide

/-- C3, counterexample: question 1 is mapped to the active processor 100
and to the *inactive* processor 300; dispatching twice creates two rows —
one of them for the inactive processor 300 — although only one distinct
active processor is bound to the questionnaire's questions, so "no more
rows than distinct active processors" fails. -/
theorem dispatch_idempotent_counterexample :
    ((process_questionnaire_response
        (process_questionnaire_response dbInactive 0 50).1 1 50).1.processing_results.map
          (fun pr => pr.processor_id) = [100, 300])
    ∧ specActiveBoundProcessors dbInactive 10 = [100]
    ∧ ((findProcessor dbInactive 300).map (fun p => p.is_active) = some false)
    ∧ ¬ (2 ≤ 1) := by
  decide

/-- C3, amended: dispatch is idempotent in the following sense — one
dispatch creates no more rows than there are grouping keys (distinct
processors having a mapping to a question that has at least one
active-processor mapping; this may exceed the number of distinct
*active* processors, per the counterexample), a second dispatch with no
intervening requeue creates no rows at all, and a `completed` row is
skipped: it stays in the store byte-for-byte and no execute job is
enqueued for it. -/
theorem dispatch_idempotent_amended (db : DB) (now now2 : Nat) (r : Int)
    (hwf : db.Wf) :
    ((process_questionnaire_response db now r).1.processing_results.length
        ≤ db.processing_results.length + dispatchGroupCount db r)
    ∧ ((process_questionnaire_response
          (process_questionnaire_response db now r).1 now2 r).1.processing_results.length
        = (process_questionnaire_response db now r).1.processing_results.length)
    ∧ (∀ pr ∈ db.processing_results, pr.status = "completed" →
        pr ∈ (process_questionnaire_response db now r).1.processing_results
        ∧ ∀ j ∈ (process_questionnaire_response db now r).2.1,
            j ≠ Job.executeJob pr.id) := by
  cases hresp : findResponse db r with
  | none =>
    rw [dispatch_none_eq db now r hresp]
    dsimp only
    rw [dispatch_none_eq db now2 r hresp]
    refine ⟨by omega, rfl, ?_⟩
    intro pr hm _
    exact ⟨hm, fun j hj => absurd hj (List.not_mem_nil j)⟩
  | some qr =>
    cases hemp : (questionsWithProcessors db qr.questionnaire_id).isEmpty with
    | true =>
      rw [dispatch_empty_eq db now r qr hresp hemp]
      dsimp only
      rw [dispatch_empty_eq db now2 r qr hresp hemp]
      refine ⟨by omega, rfl, ?_⟩
      intro pr hm _
      exact ⟨hm, fun j hj => absurd hj (List.not_mem_nil j)⟩
    | false =>
      rw [dispatch_run_eq db now r qr hresp hemp]
      dsimp only
      have hframe := dispatchGroups_frame now r
        (processorQuestions db (questionsWithProcessors db qr.questionnaire_id)) db []
      obtain ⟨hfq, hfm, hfp, hfr, hfqr⟩ := hframe
      have hwf1 : (dispatchRun db now r
          (questionsWithProcessors db qr.questionnaire_id)).1.Wf :=
        dispatchGroups_wf now r _ db [] hwf
      have hresp1 : findResponse (dispatchRun db now r
          (questionsWithProcessors db qr.questionnaire_id)).1 r = some qr := by
        rw [findResponse_congr db (dispatchRun db now r
          (questionsWithProcessors db qr.questionnaire_id)).1 r hfr]
        exact hresp
      have hqs1 : questionsWithProcessors (dispatchRun db now r
            (questionsWithProcessors db qr.questionnaire_id)).1 qr.questionnaire_id
          = questionsWithProcessors db qr.questionnaire_id :=
        questionsWithProcessors_congr db _ qr.questionnaire_id hfq hfm hfp
      have hemp1 : (questionsWithProcessors (dispatchRun db now r
            (questionsWithProcessors db qr.questionnaire_id)).1
              qr.questionnaire_id).isEmpty = false := by
        rw [hqs1]; exact hemp
      have hgroups1 : processorQuestions (dispatchRun db now r
            (questionsWithProcessors db qr.questionnaire_id)).1
              (questionsWithProcessors db qr.questionnaire_id)
          = processorQuestions db (questionsWithProcessors db qr.questionnaire_id) :=
        processorQuestions_congr db _ _ hfm
      refine ⟨?_, ?_, ?_⟩
      · have hcount : dispatchGroupCount db r
            = (processorQuestions db
                (questionsWithProcessors db qr.questionnaire_id)).length := by
          unfold dispatchGroupCount
          rw [hresp]
        rw [hcount]
        exact dispatchGroups_length_le now r _ db []
      · rw [dispatch_run_eq _ now2 r qr hresp1 hemp1]
        dsimp only
        rw [hqs1]
        unfold dispatchRun at hgroups1 ⊢
        rw [hgroups1]
        exact dispatchGroups_length_of_hasRow now2 r _ _ [] hwf1
          (fun g hg => dispatchGroups_hasRow now r _ db [] hwf g hg)
      · intro pr hm hst
        obtain ⟨hmem, hjobs⟩ := dispatchGroups_completed_preserved now r
          (processorQuestions db (questionsWithProcessors db qr.questionnaire_id))
          db [] pr hwf hm hst
        refine ⟨hmem, ?_⟩
        intro j hj
        rcases hjobs j hj with hjn | hjne
        · exact absurd hjn (List.not_mem_nil j)
        · exact hjne

/-- Witness for C3 (amended): the length bound and the
second-dispatch-creates-nothing equality at the concrete
inactive-processor database. -/
theorem dispatch_idempotent_amended_witness :
    ((process_questionnaire_response dbInactive 0 50).1.processing_results.length
        ≤ dbInactive.processing_results.length + dispatchGroupCount dbInactive 50)
    ∧ ((process_questionnaire_response
          (process_questionnaire_response dbInactive 0 50).1 1 50).1.processing_results.length
        = (process_questionnaire_response dbInactive 0 50).1.processing_results.length) :=
  ⟨(dispatch_idempotent_amended dbInactive 0 1 50 (by decide)).1,
    (dispatch_idempotent_amended dbInactive 0 1 50 (by decide)).2.1⟩

/-- C4: `execute_processor` performs no status re-check — re-running it
on row 9 which is already "completed" (raw_output "first") issues a new
external generation call and overwrites the row's prompt and raw_output
with the fresh results, instead of returning without external calls or
mutation as the claim states. -/
theorem execute_no_shortcircuit_on_completed :
    ((execute_processor renderOk (runGenOut "second")
        (dbExec procBase (resultRow "completed" (some "first"))) 9).2.1
      = [{ prompt := "PROMPT", temperature := float07, max_tokens := 2000,
           stop_sequences := Option.none, system_prompt := Option.none }])
    ∧ ((findResultById (execute_processor renderOk (runGenOut "second")
          (dbExec procBase (resultRow "completed" (some "first"))) 9).1 9).map
            (fun pr => (pr.status, pr.prompt, pr.raw_output))
        = some ("completed", some "PROMPT", some "second"))
    ∧ some "second" ≠ some "first" := by
  decide

/-- C5: with a processor carrying python post-processing code, under an
oracle where generation succeeds (stdout "GEN-OUT") and any sandbox
script invocation would fail (non-zero exit, stderr "boom"), the worker
still ends the row "completed" with a non-null `processed_output` (the
stub wrapper dict) and a null `error_message`: the sandbox is never
invoked by `execute_processor`, so a failing post-processing script can
never produce the claimed failed-with-retained-raw_output outcome —
although `execute_post_processing` itself, had it been called, would
have raised "Post-processing failed: boom". -/
theorem execute_postprocessing_stub_never_fails :
    ((findResultById (execute_processor renderOk runSandboxFail
          (dbExec procSandboxPy (resultRow "processing" Option.none)) 9).1 9).map
        (fun pr => (pr.status, pr.raw_output, pr.processed_output, pr.error_message))
      = some ("completed", some "GEN-OUT",
          some [("processed", PyVal.str "GEN-OUT")], Option.none))
    ∧ (execute_post_processing runSandboxFail (fun _ => Option.none)
        InterpreterType.python "import json; raise SystemExit(1)" "GEN-OUT"
        { questions := [], questionnaire_id := 10, user_id := 7 }
      = Except.error "Post-processing failed: boom") :=
  ⟨rfl, rfl⟩

/-- C6: the post-processing step of the worker is gated only on
non-empty `post_processing_code` — with interpreter "none" it is *not*
skipped: the row completes with `processed_output` set to the stub
wrapper dict (not left null), and no interpreter process is involved;
moreover `execute_post_processing` on interpreter "none" returns the
empty dict rather than skipping. -/
theorem execute_ignores_interpreter_gate :
    ((findResultById (execute_processor renderOk (runGenOut "GEN-OUT")
          (dbExec procSandboxNone (resultRow "processing" Option.none)) 9).1 9).map
        (fun pr => (pr.status, pr.processed_output))
      = some ("completed", some [("processed", PyVal.str "GEN-OUT")]))
    ∧ (execute_post_processing (runGenOut "GEN-OUT") (fun _ => Option.none)
        InterpreterType.none "whatever" "GEN-OUT"
        { questions := [], questionnaire_id := 10, user_id := 7 }
      = Except.ok []) :=
  ⟨by decide, rfl⟩

/-- C7: neither long-latency external call passes a timeout — the
`subprocess.run` invocation built by `generate_with_deepseek` and both
sandbox invocations of `execute_post_processing` all omit the `timeout`
keyword (modelled as `timeout = Option.none`), contrary to the claim
that both calls carry an explicit finite timeout with kill-on-timeout. -/
theorem external_calls_without_timeout :
    ∀ (prompt : String) (temperature : ℚ) (max_tokens : Int)
      (stop_sequences : Option (List String)) (system_prompt : Option String)
      (code output : String) (prompt_data : RenderContext),
      (deepseekCall prompt temperature max_tokens stop_sequences system_prompt).timeout
          = Option.none
      ∧ (pythonPostCall code output prompt_data).timeout = Option.none
      ∧ (nodePostCall code output prompt_data).timeout = Option.none := by
  intro prompt temperature max_tokens stop_sequences system_prompt code output prompt_data
  exact ⟨rfl, rfl, rfl⟩

/-- C9, counterexample: re-dispatching response 50 whose row 9 is
"failed" with error_message "boom" resets the status to "processing" but
leaves the old error_message in place, so a non-null error_message
coexists with a non-"failed" status. -/
theorem error_message_invariant_counterexample :
    ((findResultById (process_questionnaire_response dbRedispatch 1 50).1 9).map
        (fun pr => (pr.status, pr.error_message))
      = some ("processing", some "boom"))
    ∧ "processing" ≠ "failed" := by
  decide

/-- C9, amended: the invariant "error_message is non-null only when
status is 'failed'" is established for rows the dispatcher creates
(null error_message, status processing) and respected by the worker (a
fresh error message appears only together with status failed), but it is
*not* preserved by re-dispatch: the dispatcher's update path resets a
stored failed row to status "processing" while keeping its old
error_message verbatim. -/
theorem error_message_invariant_amended :
    (∀ (db : DB) (now : Nat) (r : Int), db.Wf →
      ∀ pr ∈ (process_questionnaire_response db now r).1.processing_results,
        db.next_result_id ≤ pr.id →
        pr.error_message = Option.none ∧ pr.status = "processing")
    ∧ (∀ (render : String → RenderContext → Except String String)
        (run : SubprocessCall → SubprocessOutcome) (db : DB) (result_id : Int)
        (pr0 : ProcessingResult),
        findResultById db result_id = some pr0 →
        pr0.error_message = Option.none →
        ∃ pr', findResultById (execute_processor render run db result_id).1 result_id
            = some pr'
          ∧ (pr'.error_message ≠ Option.none → pr'.status = "failed"))
    ∧ (∀ (db : DB) (now : Nat) (r : Int) (qr : QuestionnaireResponse)
        (pr : ProcessingResult) (qs : List Question), db.Wf →
        findResponse db r = some qr →
        (questionsWithProcessors db qr.questionnaire_id).isEmpty = false →
        pr ∈ db.processing_results → pr.questionnaire_response_id = r →
        pr.status = "failed" →
        (pr.processor_id, qs)
          ∈ processorQuestions db (questionsWithProcessors db qr.questionnaire_id) →
        ∃ pr' ∈ (process_questionnaire_response db now r).1.processing_results,
          pr'.id = pr.id ∧ pr'.status = "processing"
            ∧ pr'.error_message = pr.error_message) := by
  refine ⟨?_, ?_, ?_⟩
  · intro db now r hwf pr hpr hN
    cases hresp : findResponse db r with
    | none =>
      rw [dispatch_none_eq db now r hresp] at hpr
      exfalso
      have := hwf.2.1 pr hpr
      omega
    | some qr =>
      cases hemp : (questionsWithProcessors db qr.questionnaire_id).isEmpty with
      | true =>
        rw [dispatch_empty_eq db now r qr hresp hemp] at hpr
        exfalso
        have := hwf.2.1 pr hpr
        omega
      | false =>
        rw [dispatch_run_eq db now r qr hresp hemp] at hpr
        refine dispatchGroups_new_rows_clean now r db.next_result_id
          (processorQuestions db (questionsWithProcessors db qr.questionnaire_id))
          db [] ?_ pr hpr hN
        intro x hx hNx
        exfalso
        have := hwf.2.1 x hx
        omega
  · intro render run db result_id pr0 h h0
    obtain ⟨pr', hdb, hid, -, herr⟩ :=
      execute_processor_writes render run db result_id pr0 h
    refine ⟨pr', ?_, ?_⟩
    · rw [hdb]
      exact findResultById_setResult db result_id pr0 pr' h hid
    · intro hne
      rcases herr with heq | hfailed
      · rw [h0] at heq
        exact absurd heq hne
      · exact hfailed
  · intro db now r qr pr qs hwf hresp hemp hm hr hst hmem
    rw [dispatch_run_eq db now r qr hresp hemp]
    dsimp only
    have hnd := processorQuestions_keys_nodup db
      (questionsWithProcessors db qr.questionnaire_id)
    have hne : pr.status ≠ "completed" := by
      rw [hst]; decide
    have hupd := dispatchGroups_updates_row now r
      (processorQuestions db (questionsWithProcessors db qr.questionnaire_id))
      db [] pr qs hwf hnd hm hr hne hmem
    exact ⟨updatedResult pr now qs, hupd, rfl, rfl, rfl⟩

/-- Witness for C9 (amended): the failed row 9 of the concrete database
is re-dispatched to status "processing" with its old error message
"boom" retained. -/
theorem error_message_invariant_amended_witness :
    ∃ pr' ∈ (process_questionnaire_response dbRedispatch 1 50).1.processing_results,
      pr'.id = 9 ∧ pr'.status = "processing" ∧ pr'.error_message = some "boom" := by
  obtain ⟨pr', hmem, hid, hstat, herr⟩ :=
    error_message_invariant_amended.2.2 dbRedispatch 1 50
      { id := 50, questionnaire_id := 10, user_id := 7 }
      { resultRow "failed" Option.none with error_message := some "boom" }
      [{ id := 1, questionnaire_id := 10, text := "Q1", type := "text" }]
      (by decide) (by decide) (by decide) (by decide) rfl rfl (by decide)
  exact ⟨pr', hmem, hid.trans rfl, hstat, herr.trans rfl⟩

/-- C8: `requeue_processing(r, processor_id = P)` deletes exactly the
stored row for the pair (r, P), leaves every other row byte-for-byte in
place (the new store is the old one filtered by key), enqueues exactly
one dispatch job for r, and the dispatch it triggers appends exactly one
fresh row — P's, with status "processing" per `newProcessingResult` —
while every other processor's completed row is skipped (no further row
and only P's execute job). -/
theorem requeue_scoped_delete_and_redispatch
    (db : DB) (now : Nat) (r P : Int) (qr : QuestionnaireResponse)
    (exP : ProcessingResult)
    (hwf : db.Wf) (hP : P ≠ 0)
    (hresp : findResponse db r = some qr)
    (hemp : (questionsWithProcessors db qr.questionnaire_id).isEmpty = false)
    (hex : findResult db r P = some exP)
    (hmem : P ∈ (processorQuestions db
      (questionsWithProcessors db qr.questionnaire_id)).map Prod.fst)
    (hothers : ∀ g ∈ processorQuestions db
        (questionsWithProcessors db qr.questionnaire_id),
      g.1 ≠ P → (findResult db r g.1).map (fun ex => ex.status) = some "completed") :
    ((requeue_processing db r (some P)).1.processing_results
        = db.processing_results.filter (fun pr =>
            !(pr.questionnaire_response_id == r && pr.processor_id == P)))
    ∧ ((requeue_processing db r (some P)).2.1 = [Job.dispatchJob r])
    ∧ (∃ qsP,
        (process_questionnaire_response (requeue_processing db r (some P)).1
            now r).1.processing_results
          = (requeue_processing db r (some P)).1.processing_results
            ++ [newProcessingResult (requeue_processing db r (some P)).1 now r P qsP]
        ∧ (process_questionnaire_response (requeue_processing db r (some P)).1
            now r).2.1
          = [Job.executeJob (requeue_processing db r (some P)).1.next_result_id]) := by
  have hreq := requeue_some_eq db r P qr exP hresp hP hex
  have hfeq := filter_delete_eq db r P exP hwf hex
  have hdb1 : ({ db with processing_results :=
        db.processing_results.filter (fun pr => pr.id != exP.id) } : DB)
      = deleteByKey db r P := by
    unfold deleteByKey
    rw [hfeq]
  rw [hreq]
  dsimp only
  rw [hdb1]
  refine ⟨hfeq, rfl, ?_⟩
  obtain ⟨g, hgmem, hg1⟩ := List.mem_map.mp hmem
  obtain ⟨gs1, gs2, hsplit⟩ := List.append_of_mem hgmem
  have hnd := processorQuestions_keys_nodup db
    (questionsWithProcessors db qr.questionnaire_id)
  rw [hsplit] at hnd
  rw [List.map_append, List.map_cons] at hnd
  rw [List.nodup_append] at hnd
  obtain ⟨hnd1, hnd2, hdisj⟩ := hnd
  have hnd2' := List.nodup_cons.mp hnd2
  have hPnot1 : P ∉ gs1.map Prod.fst := by
    intro hcontra
    exact (hdisj hcontra) (by rw [hg1]; exact List.mem_cons_self _ _)
  have hPnot2 : P ∉ gs2.map Prod.fst := by
    intro hcontra
    rw [← hg1] at hcontra
    exact hnd2'.1 hcontra
  have hgpair : g = (P, g.2) := by
    rw [← hg1]
  have hwfK : (deleteByKey db r P).Wf := filter_wf db _ hwf
  have hrespK : findResponse (deleteByKey db r P) r = some qr := hresp
  have hempK : (questionsWithProcessors (deleteByKey db r P)
      qr.questionnaire_id).isEmpty = false := hemp
  rw [dispatch_run_eq _ now r qr hrespK hempK]
  dsimp only
  unfold dispatchRun
  have hsplitK : processorQuestions (deleteByKey db r P)
        (questionsWithProcessors (deleteByKey db r P) qr.questionnaire_id)
      = gs1 ++ (P, g.2) :: gs2 := by
    rw [← hgpair]
    exact hsplit
  rw [hsplitK]
  have hcompleted : ∀ g' ∈ gs1 ++ gs2,
      ∃ ex, findResult (deleteByKey db r P) r g'.1 = some ex
        ∧ ex.status = "completed" := by
    intro g' hg'
    have hg'mem : g' ∈ processorQuestions db
        (questionsWithProcessors db qr.questionnaire_id) := by
      rw [hsplit]
      rcases List.mem_append.mp hg' with h1 | h2
      · exact List.mem_append.mpr (Or.inl h1)
      · exact List.mem_append.mpr (Or.inr (List.mem_cons_of_mem _ h2))
    have hg'ne : g'.1 ≠ P := by
      intro hcontra
      rcases List.mem_append.mp hg' with h1 | h2
      · exact hPnot1 (hcontra ▸ List.mem_map.mpr ⟨g', h1, rfl⟩)
      · exact hPnot2 (hcontra ▸ List.mem_map.mpr ⟨g', h2, rfl⟩)
    have hoth := hothers g' hg'mem hg'ne
    cases hfind : findResult db r g'.1 with
    | none => rw [hfind] at hoth; cases hoth
    | some ex =>
      rw [hfind] at hoth
      have hst : ex.status = "completed" := by simpa using hoth
      obtain ⟨hexm', hexr', hexp'⟩ := findResult_some_facts db r g'.1 ex hfind
      refine ⟨ex, ?_, hst⟩
      show (db.processing_results.filter (fun pr =>
          !(pr.questionnaire_response_id == r && pr.processor_id == P))).find?
        (fun pr => pr.questionnaire_response_id == r && pr.processor_id == g'.1)
          = some ex
      apply find?_filter_some _ _ _ ex hfind
      rw [Bool.not_eq_true']
      rw [Bool.and_eq_false_iff]
      right
      rw [beq_eq_false_iff_ne]
      rw [hexp']
      exact hg'ne
  have hnoneK : findResult (deleteByKey db r P) r P = Option.none := by
    apply List.find?_eq_none.mpr
    intro x hxmem hpred
    have hxq := (List.mem_filter.mp hxmem).2
    simp only [Bool.and_eq_true, beq_iff_eq] at hpred
    rw [Bool.not_eq_true'] at hxq
    rw [Bool.and_eq_false_iff] at hxq
    rcases hxq with h1 | h2
    · rw [beq_eq_false_iff_ne] at h1
      exact h1 hpred.1
    · rw [beq_eq_false_iff_ne] at h2
      exact h2 hpred.2
  rw [dispatchGroups_single_fresh now r P g.2 gs1 gs2 _ []
    (fun g' hg' => hcompleted g' (List.mem_append.mpr (Or.inl hg')))
    (fun g' hg' => hcompleted g' (List.mem_append.mpr (Or.inr hg')))
    hnoneK]
  exact ⟨g.2, by rw [hfeq]; rfl, rfl⟩

/-- Witness for C8: the concrete two-processor database — requeueing
(50, 200) deletes exactly 200's row and leaves 100's completed row. -/
theorem requeue_scoped_delete_and_redispatch_witness :
    ((requeue_processing dbRequeue 50 (some 200)).1.processing_results
        = dbRequeue.processing_results.filter (fun pr =>
            !(pr.questionnaire_response_id == 50 && pr.processor_id == 200)))
    ∧ ((requeue_processing dbRequeue 50 (some 200)).2.1 = [Job.dispatchJob 50]) :=
  ⟨(requeue_scoped_delete_and_redispatch dbRequeue 0 50 200
      { id := 50, questionnaire_id := 10, user_id := 7 } (completedRowFor 9 200)
      (by decide) (by decide) (by decide) (by decide) (by decide) (by decide)
      (by decide)).1,
    (requeue_scoped_delete_and_redispatch dbRequeue 0 50 200
      { id := 50, questionnaire_id := 10, user_id := 7 } (completedRowFor 9 200)
      (by decide) (by decide) (by decide) (by decide) (by decide) (by decide)
      (by decide)).2.1⟩

/-- C10: when the stored llm parameters of the result's processor are
the explicit zeros `0.0` / `0`, every generation-backend call the worker
makes carries the documented defaults: temperature 0.7 and max tokens
2000 (Python `or` treats the stored zeros like unset values). -/
theorem zero_llm_params_replaced_by_defaults
    (render : String → RenderContext → Except String String)
    (run : SubprocessCall → SubprocessOutcome) (db : DB) (result_id : Int)
    (pr0 : ProcessingResult) (proc : Processor)
    (h : findResultById db result_id = some pr0)
    (hp : findProcessor db pr0.processor_id = some proc)
    (ht : proc.llm_temperature = some 0) (hm : proc.llm_max_tokens = some 0) :
    ∀ req ∈ (execute_processor render run db result_id).2.1,
      req.temperature = float07 ∧ req.max_tokens = 2000 := by
  intro req hreq
  unfold execute_processor at hreq
  split at hreq
  · rename_i heq
    rw [h] at heq
    exact absurd heq (by simp)
  · rename_i prx heq
    rw [h] at heq
    injection heq with heq
    subst heq
    split at hreq
    · rename_i heq2
      rw [hp] at heq2
      exact absurd heq2 (by simp)
    · rename_i procx heq2
      rw [hp] at heq2
      injection heq2 with heq2
      subst heq2
      split at hreq
      · simp at hreq
      · split at hreq
        · simp at hreq
        · unfold executeTry at hreq
          split at hreq
          · simp at hreq
          · unfold executeAfterGen at hreq
            split at hreq
            · simp only [List.mem_singleton] at hreq
              subst hreq
              unfold genRequestOf
              rw [ht, hm]
              exact ⟨by simp [pyOrRat], by simp [pyOrInt]⟩
            · simp only [List.mem_singleton] at hreq
              subst hreq
              unfold genRequestOf
              rw [ht, hm]
              exact ⟨by simp [pyOrRat], by simp [pyOrInt]⟩

/-- Witness for C10: with processor 100 storing temperature 0.0 and max
tokens 0, the concrete worker run's generation call carries 0.7/2000. -/
theorem zero_llm_params_replaced_by_defaults_witness :
    ({ prompt := "PROMPT", temperature := float07, max_tokens := 2000,
       stop_sequences := Option.none, system_prompt := Option.none } : GenRequest).temperature
        = float07
    ∧ ({ prompt := "PROMPT", temperature := float07, max_tokens := 2000,
         stop_sequences := Option.none, system_prompt := Option.none } : GenRequest).max_tokens
        = 2000 :=
  zero_llm_params_replaced_by_defaults renderOk (runGenOut "G")
    (dbExec procZero (resultRow "processing" Option.none)) 9
    (resultRow "processing" Option.none) procZero
    (by decide) (by decide) rfl rfl
    { prompt := "PROMPT", temperature := float07, max_tokens := 2000,
      stop_sequences := Option.none, system_prompt := Option.none }
    (by decide)

end Cognivers
